import Mathlib

/-!
Verification development for the `fmt` freestanding C string-formatting
library (files `src/fmt.c`, `src/fmtlib.c`, and the header in
`src/unnamed/part_001`).  The C sources are embedded shallowly:

* bytes are `Char` (the sources are ASCII); the template is a `List Char`
  and reading one past its end yields the NUL byte, like the C scanner
  meeting the terminator (templates with embedded NUL bytes are outside
  the model);
* machine integers are `Nat`/`Int` with explicit `% 2^64` where the C
  converts to `size_t`/`uint64_t`;
* C doubles are modelled as exact rational values; the IEEE bit-pattern
  special cases (Inf/NaN, negative zero) have no rational counterpart and
  are outside the embedding's domain, and double arithmetic is exact
  rational arithmetic;
* the possibly non-terminating driver loops take explicit fuel and return
  `Option`;
* fixed-size C arrays indexed below `FMT_MAX_ARGS`/`FMT_MAX_SPECS` are
  total functions `Nat → _` with pointwise update.

`fmt.h` and the newer `fmtlib.h` are not under `src/`; the few entities
they provide (`FMT_MAX_SPECS`, `FMT_MAX_ARGS`, `fmtlib_atoi`, the
`fmtlib_buffer*` operations) are modelled from the spec where noted.
-/

/-- The NUL byte, the C string terminator. -/
def nulChar : Char := Char.ofNat 0

/-- Byte at offset `i` of the template; past the end the C scanner sees the
NUL terminator. -/
def chAt (t : List Char) (i : Nat) : Char := t.getD i nulChar

/-- `is_digit` macro of fmt.c. -/
def isDigit (c : Char) : Bool := 48 ≤ c.toNat && c.toNat ≤ 57

/-- `is_alpha` macro of fmt.c. -/
def isAlpha (c : Char) : Bool :=
  (97 ≤ c.toNat && c.toNat ≤ 122) || (65 ≤ c.toNat && c.toNat ≤ 90)

/-- `is_align` macro of fmt.c. -/
def isAlign (c : Char) : Bool := c = '<' || c = '^' || c = '>'

/-- Value of a decimal digit byte. -/
def digitVal (c : Char) : Nat := c.toNat - 48

/-- `(size_t)` conversion of a C `int` (64-bit `size_t`). -/
def sizeT (i : Int) : Nat := (i % (2 ^ 64 : Int)).toNat

/-- Reinterpret a `uint64_t` as `int64_t`. -/
def toInt64 (u : Nat) : Int := if u < 2 ^ 63 then (u : Int) else (u : Int) - 2 ^ 64

/-- Pointwise update of a function modelling a fixed-size C array. -/
def updF {α : Type} (f : Nat → α) (i : Nat) (v : α) : Nat → α :=
  fun j => if j = i then v else f j

-- ==========================================================================
-- Output buffer (`fmt_buffer_t`, header `src/unnamed/part_001`, lines 73-110).
-- The `fmtlib_buffer`/`fmtlib_buffer_write`/`fmtlib_buffer_write_char`
-- operations used by fmtlib.c come from the newer fmtlib.h that is not under
-- src/; modelled from the spec (§4.1): they are the same bounded byte sink
-- with one byte reserved for the trailing null, identical to the
-- `fmt_buffer_*` operations of the header in src.
-- ==========================================================================

/-- `fmt_buffer_t`: `out` is the written prefix (the C `data` pointer advances
over it), `size` the remaining usable capacity, `written` the write counter. -/
structure FmtBuffer where
  out : List Char
  size : Nat
  written : Nat
deriving DecidableEq, Repr

/-- `fmt_buffer(data, size)`: zeroes the region and reserves one byte for the
null terminator.  The capacity must be ≥ 1 (the C `size - 1` would wrap at 0;
`Nat` subtraction clamps instead, so statements about the buffer require
`1 ≤ cap`). -/
def fmt_buffer (cap : Nat) : FmtBuffer := { out := [], size := cap - 1, written := 0 }

/-- `fmt_buffer_full`. -/
def fmt_buffer_full (b : FmtBuffer) : Bool := b.size == 0

/-- The `n` bytes the C `memcpy` reads from `data`: when every caller passes
`len ≤ data.length` this is `data.take n`; reading past the end of the given
bytes (never done by the embedded code on the inputs of the theorems below)
is modelled as reading NUL bytes. -/
def paddedTake (data : List Char) (n : Nat) : List Char :=
  data.take n ++ List.replicate (n - data.length) nulChar

/-- `fmt_buffer_write(b, data, size)` (part_001 lines 91-100): clamps to the
remaining capacity. -/
def fmt_buffer_write (b : FmtBuffer) (data : List Char) (len : Nat) : Nat × FmtBuffer :=
  if b.size = 0 then (0, b)
  else
    let n := min len b.size
    (n, { out := b.out ++ paddedTake data n, size := b.size - n, written := b.written + n })

/-- `fmt_buffer_write_char` (part_001 lines 102-110). -/
def fmt_buffer_write_char (b : FmtBuffer) (c : Char) : Nat × FmtBuffer :=
  if b.size = 0 then (0, b)
  else (1, { out := b.out ++ [c], size := b.size - 1, written := b.written + 1 })

/-- `for`-loop writing `k` copies of a byte (the padding loops of fmtlib.c). -/
def writeRepeat (b : FmtBuffer) (c : Char) : Nat → Nat × FmtBuffer
  | 0 => (0, b)
  | k + 1 =>
    let r1 := fmt_buffer_write_char b c
    let r2 := writeRepeat r1.2 c k
    (r1.1 + r2.1, r2.2)

/-- `while (*ptr) write_char(*ptr++)` over a byte list (the prefix loop of
`format_integer`). -/
def writeChars (b : FmtBuffer) : List Char → Nat × FmtBuffer
  | [] => (0, b)
  | c :: cs =>
    let r1 := fmt_buffer_write_char b c
    let r2 := writeChars r1.2 cs
    (r1.1 + r2.1, r2.2)

/-- The full caller-owned byte region of capacity `cap` after the writes:
the written prefix followed by the untouched zeroed tail. -/
def bufferBytes (cap : Nat) (b : FmtBuffer) : List Char :=
  b.out ++ List.replicate (cap - b.out.length) nulChar

/-- `n += op(&buf)` sequencing: add the bytes written by one more buffer
operation to a running (count, buffer) pair. -/
def wadd (r : Nat × FmtBuffer) (f : FmtBuffer → Nat × FmtBuffer) : Nat × FmtBuffer :=
  let s := f r.2
  (r.1 + s.1, s.2)

-- ==========================================================================
-- Number-to-text (fmtlib.c lines 33-72).
-- ==========================================================================

/-- `struct num_format` (fmtlib.c line 33); `pfx` is the C `prefix` field. -/
structure NumFormat where
  base : Nat
  digits : List Char
  pfx : List Char

def binary_format : NumFormat := ⟨2, ['0', '1'], ['0', 'b']⟩
def octal_format : NumFormat := ⟨8, ['0','1','2','3','4','5','6','7'], ['0', 'o']⟩
def decimal_format : NumFormat :=
  ⟨10, ['0','1','2','3','4','5','6','7','8','9'], []⟩
def hex_lower_format : NumFormat :=
  ⟨16, decimal_format.digits ++ ['a', 'b', 'c', 'd', 'e', 'f'], ['0', 'x']⟩
def hex_upper_format : NumFormat :=
  ⟨16, decimal_format.digits ++ ['A', 'B', 'C', 'D', 'E', 'F'], ['0', 'X']⟩

/-- Digit loop of `u64_to_str`, least-significant digit first.  The fuel 64
bounds the iteration count: a `uint64_t` has at most 64 digits in any base
≥ 2 (values ≥ 2^64 only arise in the C code through undefined
double-to-uint64 casts, outside the model). -/
def u64ToStrAux (base : Nat) (digits : List Char) : Nat → Nat → List Char
  | 0, _ => []
  | fuel + 1, v =>
    if v = 0 then [] else digits.getD (v % base) '0' :: u64ToStrAux base digits fuel (v / base)

/-- `u64_to_str` (fmtlib.c lines 51-72): emits digits LSB-first into a scratch
region then reverses; zero produces "0". -/
def u64_to_str (v : Nat) (fmt : NumFormat) : List Char :=
  if v = 0 then ['0'] else (u64ToStrAux fmt.base fmt.digits 64 v).reverse

-- ==========================================================================
-- Shared types: flags, alignment, argument kinds, value slots.
-- ==========================================================================

def FMT_FLAG_ALT : Nat := 1
def FMT_FLAG_UPPER : Nat := 2
def FMT_FLAG_SIGN : Nat := 4
def FMT_FLAG_SPACE : Nat := 8
def FMT_FLAG_ZERO : Nat := 16

/-- `flags & f` nonzero. -/
def hasFlag (flags f : Nat) : Bool := flags &&& f != 0

/-- `fmt_align_t`. -/
inductive FmtAlign where
  | left
  | center
  | right
deriving DecidableEq, Repr

/-- `fmt_argtype_t` of the newer fmtlib.h (named after the C macros). -/
inductive FmtArgType where
  | NONE
  | INT32
  | UINT32
  | INT64
  | UINT64
  | SIZE
  | DOUBLE
  | VOIDPTR
deriving DecidableEq, Repr

/-- The built-in formatter functions a resolved specifier can point to;
`fCustom` carries the tag of a user-registered entry whose body is host code
outside the model (every theorem below uses an empty registry). -/
inductive Formatter where
  | fSigned
  | fUnsigned
  | fBinary
  | fOctal
  | fHex
  | fDouble
  | fString
  | fChar
  | fCustom (tag : List Char)
deriving DecidableEq, Repr

/-- What one variadic slot of the caller's argument list holds. -/
inductive CArg where
  | aint (n : Int)
  | adbl (q : ℚ)
  | astr (s : List Char)
deriving DecidableEq, Repr

/-- The 64-bit payload a `void *values[]` slot can hold after `LOAD_ARG`:
an integer register value or a pointer to a caller string. -/
inductive Payload where
  | pint (n : Int)
  | pstr (s : List Char)
deriving DecidableEq, Repr

/-- A value slot: `none` is the NULL pointer. -/
def Value : Type := Option Payload

instance : DecidableEq Value := by unfold Value; infer_instance

instance : Repr Value := by unfold Value; infer_instance

/-- `spec->value.uint64_value`.  A NULL slot reads as 0.  The numeric address
of a string pointer is not modelled (no embedded code path reads a pointer
slot as an integer). -/
def uint64_value : Value → Nat
  | none => 0
  | some (.pint n) => (n % (2 ^ 64 : Int)).toNat
  | some (.pstr _) => 0

/-- `spec->value.double_value`.  A NULL slot reads as 0.0.  Reinterpreting an
integer payload's bits as a double is not modelled: in this source snapshot
`LOAD_ARG` stores only NULL into value slots that formatters read (see the
theorems on claims C3/C9). -/
def double_value : Value → ℚ
  | none => 0
  | some _ => 0

/-- `spec->value.voidptr_value` read as a C string pointer.  An integer
payload dereferenced as a string would be undefined behavior; modelled as
NULL (no embedded code path does it). -/
def voidptr_value : Value → Option (List Char)
  | none => none
  | some (.pstr s) => some s
  | some (.pint _) => none

/-- `char c = *((char *)&spec->value)`: the low byte of the slot.  For a NULL
slot this is 0; for an integer payload the low byte of its value; the low
byte of a pointer is not modelled (returns 0). -/
def low_byte_of_value : Value → Char
  | none => nulChar
  | some (.pint n) => Char.ofNat ((n % 256).toNat)
  | some (.pstr _) => nulChar

/-- `va_arg(args, int)`: reads slot `k` as a 32-bit integer.  A kind mismatch
or exhausted list is undefined behavior in C; modelled as 0. -/
def va_arg_int (args : List CArg) (k : Nat) : Int :=
  match args.get? k with
  | some (.aint n) => n
  | _ => 0

/-- `va_arg(args, uint64_t)`: reads slot `k` as a 64-bit register, which for a
string argument is its pointer.  A double in that slot is a variadic kind
mismatch (undefined behavior), modelled as integer 0. -/
def va_arg_u64 (args : List CArg) (k : Nat) : Payload :=
  match args.get? k with
  | some (.aint n) => .pint n
  | some (.astr s) => .pstr s
  | _ => .pint 0

-- ==========================================================================
-- Specifier records.
-- ==========================================================================

def FMTLIB_MAX_WIDTH : Nat := 256
def FMTLIB_MAX_TYPE_LEN : Nat := 16
def PRECISION_DEFAULT : Int := 6
def PRECISION_MAX : Int := 9
def TEMP_BUFFER_SIZE : Nat := FMTLIB_MAX_WIDTH + 1

/-- `fmt_spec_t` (newer fmtlib.h layout used by both C files; superset of the
header in src).  `type` is the NUL-terminated copy truncated to
`FMTLIB_MAX_TYPE_LEN` bytes; `type_len` keeps the full parsed length as in
the source (fmt.c line 320).  `end_offset` is the byte offset just past the
closing brace (`spec->end`). -/
structure FmtSpec where
  type : List Char
  type_len : Nat
  flags : Nat
  width : Int
  precision : Int
  align : FmtAlign
  fill_char : Char
  end_offset : Nat
  value : Value
  argtype : FmtArgType
  formatter : Option Formatter
deriving DecidableEq, Repr

/-- Zero-initialised `fmt_spec_t` (the `specs[FMT_MAX_SPECS] = {0}` array). -/
def specZero : FmtSpec :=
  { type := [], type_len := 0, flags := 0, width := 0, precision := 0,
    align := .left, fill_char := nulChar, end_offset := 0, value := none,
    argtype := .NONE, formatter := none }

/-- `parsed_fmt_spec_t` (fmt.c lines 17-29).  `type_pos` stands for the
`const char *type` pointer into the template. -/
structure ParsedSpec where
  index : Nat
  flags : Nat
  width_or_index : Nat
  width_is_index : Bool
  precision_or_index : Nat
  precision_is_index : Bool
  align : FmtAlign
  fill_char : Char
  type_pos : Nat
  type_len : Nat
  valid : Bool
deriving DecidableEq, Repr

/-- Zero-initialised `parsed_fmt_spec_t`; also stands for the record after an
`early_exit`, which only stores `valid = false` (the other fields are stale
zero-initialised array contents never read by the driver). -/
def parsedZero : ParsedSpec :=
  { index := 0, flags := 0, width_or_index := 0, width_is_index := false,
    precision_or_index := 0, precision_is_index := false, align := .left,
    fill_char := nulChar, type_pos := 0, type_len := 0, valid := false }

-- ==========================================================================
-- fmtlib.c: integer formatting (lines 74-139).
-- ==========================================================================

/-- `format_integer` (fmtlib.c lines 75-139), writing into the given buffer
(in the callers this is the intermediate value buffer). -/
def format_integer (buffer : FmtBuffer) (spec : FmtSpec) (is_signed : Bool)
    (fmt : NumFormat) : Nat × FmtBuffer :=
  let width : Int := min (max spec.width 0) (FMTLIB_MAX_WIDTH : Int)
  let vneg : Nat × Bool :=
    if is_signed then
      let i := toInt64 (uint64_value spec.value)
      if i < 0 then ((-i).toNat, true) else (i.toNat, false)
    else (uint64_value spec.value, false)
  let v := vneg.1
  let is_negative := vneg.2
  let r0 : Nat × FmtBuffer := (0, buffer)
  let r1 :=
    if is_negative then wadd r0 (fmt_buffer_write_char · '-')
    else if hasFlag spec.flags FMT_FLAG_SIGN then wadd r0 (fmt_buffer_write_char · '+')
    else if hasFlag spec.flags FMT_FLAG_SPACE then wadd r0 (fmt_buffer_write_char · ' ')
    else r0
  let r2 := if hasFlag spec.flags FMT_FLAG_ALT then wadd r1 (writeChars · fmt.pfx) else r1
  let temp := u64_to_str v fmt
  let len := temp.length
  let r3 :=
    if sizeT spec.precision > len then
      wadd r2 (writeRepeat · '0' (sizeT spec.precision - len))
    else r2
  let r4 :=
    if hasFlag spec.flags FMT_FLAG_ZERO ∧ width.toNat > len + r3.1 then
      wadd r3 (writeRepeat · '0' (width.toNat - len - r3.1))
    else r3
  wadd r4 (fmt_buffer_write · temp len)

-- ==========================================================================
-- fmtlib.c: double formatting (lines 141-248).
-- ==========================================================================

/-- `tmp = (v.value - (double)whole) * pow10[prec]` for the nonnegative value
`av` (fmtlib.c line 193), in the exact rational model of doubles. -/
def fd_tmp (av : ℚ) (prec : Nat) : ℚ := (av - (⌊av⌋.toNat : ℚ)) * 10 ^ prec

/-- `frac = (uint64_t) tmp` (fmtlib.c line 194). -/
def fd_frac (av : ℚ) (prec : Nat) : Nat := ⌊fd_tmp av prec⌋.toNat

/-- `delta = tmp - (double)frac` (fmtlib.c line 197). -/
def fd_delta (av : ℚ) (prec : Nat) : ℚ := fd_tmp av prec - (fd_frac av prec : ℚ)

/-- The whole/fraction decomposition with rounding of `format_double`
(fmtlib.c lines 189-210): returns the final `(whole, frac)` pair.  On the
half-way case the code increments `frac` when it is zero or odd. -/
def fd_round (av : ℚ) (prec : Nat) : Nat × Nat :=
  let whole := ⌊av⌋.toNat
  let frac := fd_frac av prec
  let delta := fd_delta av prec
  if delta > 1 / 2 then
    if frac + 1 ≥ 10 ^ prec then (whole + 1, 0) else (whole, frac + 1)
  else if delta < 1 / 2 then (whole, frac)
  else if frac = 0 ∨ frac % 2 = 1 then (whole, frac + 1)
  else (whole, frac)

/-- `format_double` (fmtlib.c lines 144-248) for finite doubles.  The
`exp == 0x7FF` branches (Inf/NaN) have no rational counterpart and are
outside the embedding's domain; the `exp == 0 && frac == 0` bit test is the
`v = 0` test (negative zero is not representable in `ℚ`).  Note the missing
`else` after the sign write (line 151-153) is mirrored: a negative value
with the SIGN flag writes both `-` and `+`. -/
def format_double (buffer : FmtBuffer) (spec : FmtSpec) : Nat × FmtBuffer :=
  let v := double_value spec.value
  let width : Nat := (min (max spec.width 0) (FMTLIB_MAX_WIDTH : Int)).toNat
  let prec : Nat := (min (if spec.precision > 0 then spec.precision else PRECISION_DEFAULT)
      PRECISION_MAX).toNat
  let r0 : Nat × FmtBuffer := (0, buffer)
  let r1 := if v < 0 then wadd r0 (fmt_buffer_write_char · '-') else r0
  let r1 :=
    if hasFlag spec.flags FMT_FLAG_SIGN then wadd r1 (fmt_buffer_write_char · '+')
    else if hasFlag spec.flags FMT_FLAG_SPACE then wadd r1 (fmt_buffer_write_char · ' ')
    else r1
  if v = 0 then
    let r2 := wadd r1 (fmt_buffer_write_char · '0')
    if !hasFlag spec.flags FMT_FLAG_ALT then
      let r3 := wadd r2 (fmt_buffer_write_char · '.')
      wadd r3 (writeRepeat · '0' prec)
    else r2
  else
    let av := if v < 0 then -v else v
    let wf := fd_round av prec
    let whole := wf.1
    let frac := wf.2
    let write_decimal := !(frac = 0 && hasFlag spec.flags FMT_FLAG_ALT)
    let wtemp := u64_to_str whole decimal_format
    let ftemp := u64_to_str frac decimal_format
    let frac_len := if write_decimal then ftemp.length else 0
    let temp := if write_decimal then wtemp ++ ['.'] ++ ftemp else wtemp
    let len := temp.length
    let r2 :=
      if hasFlag spec.flags FMT_FLAG_ZERO ∧ width > len + r1.1 then
        wadd r1 (writeRepeat · '0' (width - len - r1.1))
      else r1
    let r3 := wadd r2 (fmt_buffer_write · temp len)
    if write_decimal ∧ prec > frac_len then
      wadd r3 (writeRepeat · '0' (prec - frac_len))
    else r3

-- ==========================================================================
-- fmtlib.c: alignment (lines 250-283) and the public formatters (286-370).
-- ==========================================================================

/-- `apply_alignment` (fmtlib.c lines 251-283).  The `spec->width` C `int` is
compared against the `size_t` length, hence the `sizeT` conversion. -/
def apply_alignment (buffer : FmtBuffer) (spec : FmtSpec) (str : List Char)
    (len : Nat) : Nat × FmtBuffer :=
  if len > sizeT spec.width then fmt_buffer_write buffer str len
  else
    let padding := sizeT spec.width - len
    let pad_char := spec.fill_char
    match spec.align with
    | .left =>
      let r1 := wadd (0, buffer) (fmt_buffer_write · str len)
      wadd r1 (writeRepeat · pad_char padding)
    | .right =>
      let r1 := wadd (0, buffer) (writeRepeat · pad_char padding)
      wadd r1 (fmt_buffer_write · str len)
    | .center =>
      let r1 := wadd (0, buffer) (writeRepeat · pad_char (padding / 2))
      let r2 := wadd r1 (fmt_buffer_write · str len)
      wadd r2 (writeRepeat · pad_char (padding - padding / 2))

/-- `fmtlib_format_signed` (fmtlib.c lines 288-294): formats into an
intermediate value buffer of `TEMP_BUFFER_SIZE` bytes, then aligns. -/
def fmtlib_format_signed (buffer : FmtBuffer) (spec : FmtSpec) : Nat × FmtBuffer :=
  let r := format_integer (fmt_buffer TEMP_BUFFER_SIZE) spec true decimal_format
  apply_alignment buffer spec r.2.out r.1

/-- `fmtlib_format_unsigned` (fmtlib.c lines 296-302). -/
def fmtlib_format_unsigned (buffer : FmtBuffer) (spec : FmtSpec) : Nat × FmtBuffer :=
  let r := format_integer (fmt_buffer TEMP_BUFFER_SIZE) spec false decimal_format
  apply_alignment buffer spec r.2.out r.1

/-- `fmtlib_format_binary` (fmtlib.c lines 304-310). -/
def fmtlib_format_binary (buffer : FmtBuffer) (spec : FmtSpec) : Nat × FmtBuffer :=
  let r := format_integer (fmt_buffer TEMP_BUFFER_SIZE) spec false binary_format
  apply_alignment buffer spec r.2.out r.1

/-- `fmtlib_format_octal` (fmtlib.c lines 312-318). -/
def fmtlib_format_octal (buffer : FmtBuffer) (spec : FmtSpec) : Nat × FmtBuffer :=
  let r := format_integer (fmt_buffer TEMP_BUFFER_SIZE) spec false octal_format
  apply_alignment buffer spec r.2.out r.1

/-- `fmtlib_format_hex` (fmtlib.c lines 320-327). -/
def fmtlib_format_hex (buffer : FmtBuffer) (spec : FmtSpec) : Nat × FmtBuffer :=
  let fmt := if hasFlag spec.flags FMT_FLAG_UPPER then hex_upper_format else hex_lower_format
  let r := format_integer (fmt_buffer TEMP_BUFFER_SIZE) spec false fmt
  apply_alignment buffer spec r.2.out r.1

/-- `fmtlib_format_double` (fmtlib.c lines 329-335). -/
def fmtlib_format_double (buffer : FmtBuffer) (spec : FmtSpec) : Nat × FmtBuffer :=
  let r := format_double (fmt_buffer TEMP_BUFFER_SIZE) spec
  apply_alignment buffer spec r.2.out r.1

/-- The six bytes emitted for a NULL string argument. -/
def nullChars : List Char := ['(', 'n', 'u', 'l', 'l', ')']

/-- `fmtlib_format_string` (fmtlib.c lines 337-353): a NULL pointer prints
`(null)`; otherwise the precision bounds the length, with `strlen` as the
default. -/
def fmtlib_format_string (buffer : FmtBuffer) (spec : FmtSpec) : Nat × FmtBuffer :=
  let str0 := voidptr_value spec.value
  let sl : List Char × Nat :=
    match str0 with
    | none => (nullChars, 6)
    | some s =>
      let len := sizeT spec.precision
      if len = 0 then (s, s.length) else (s, len)
  if spec.width = 0 then fmt_buffer_write buffer sl.1 sl.2
  else apply_alignment buffer spec sl.1 sl.2

/-- `fmtlib_format_char` (fmtlib.c lines 355-370): a NUL character prints the
two bytes `\0`. -/
def fmtlib_format_char (buffer : FmtBuffer) (spec : FmtSpec) : Nat × FmtBuffer :=
  let c := low_byte_of_value spec.value
  let sl : List Char × Nat := if c = nulChar then (['\\', '0'], 2) else ([c], 1)
  if spec.width = 0 then fmt_buffer_write buffer sl.1 sl.2
  else apply_alignment buffer spec sl.1 sl.2

-- ==========================================================================
-- fmtlib.c: type registry and resolution (lines 18-22, 47-48, 374-509).
-- ==========================================================================

/-- `fmt_format_type_t`: a registered custom type.  The formatter function is
host code outside the model, so only the tag and argument kind are kept. -/
structure RegEntry where
  tag : List Char
  argtype : FmtArgType
deriving DecidableEq, Repr

/-- The linear registry search at the end of `fmtlib_resolve_type`
(fmtlib.c lines 497-508): first entry whose tag compares equal (`strcmp`),
else the not-found result `0` with no formatter. -/
def resolve_fallback (reg : List RegEntry) (spec : FmtSpec) : Int × FmtSpec :=
  match reg.find? (fun e => e.tag == spec.type) with
  | some e => (1, { spec with argtype := e.argtype, formatter := some (.fCustom e.tag) })
  | none => (0, { spec with argtype := .NONE, formatter := none })

/-- `fmtlib_resolve_type` (fmtlib.c lines 385-509).  Mirrors the source
exactly, including the missing `return` after `case 'c'` (line 429): the
`c` assignments fall through into the `case 'p'` assignments.  Returns the
C `int` result: `1` when resolved (also for the empty tag), `0` when the
tag is unknown — the function never returns a negative value, although its
header comment documents `-1` for unknown types. -/
def fmtlib_resolve_type (reg : List RegEntry) (spec : FmtSpec) : Int × FmtSpec :=
  if spec.type_len = 0 then (1, { spec with argtype := .NONE, formatter := none })
  else if spec.type_len = 1 then
    let c := spec.type.getD 0 nulChar
    if c = 'd' then (1, { spec with argtype := .INT32, formatter := some .fSigned })
    else if c = 'u' then (1, { spec with argtype := .UINT32, formatter := some .fUnsigned })
    else if c = 'b' then (1, { spec with argtype := .UINT32, formatter := some .fBinary })
    else if c = 'o' then (1, { spec with argtype := .UINT32, formatter := some .fOctal })
    else if c = 'X' then
      (1, { spec with flags := spec.flags ||| FMT_FLAG_UPPER, argtype := .UINT32,
                      formatter := some .fHex })
    else if c = 'x' then (1, { spec with argtype := .UINT32, formatter := some .fHex })
    else if c = 'F' then
      (1, { spec with flags := spec.flags ||| FMT_FLAG_UPPER, argtype := .DOUBLE,
                      formatter := some .fDouble })
    else if c = 'f' then (1, { spec with argtype := .DOUBLE, formatter := some .fDouble })
    else if c = 's' then (1, { spec with argtype := .VOIDPTR, formatter := some .fString })
    else if c = 'c' then
      let spec := { spec with argtype := FmtArgType.INT32, formatter := some Formatter.fChar }
      (1, { spec with flags := spec.flags ||| FMT_FLAG_ALT, argtype := .VOIDPTR,
                      formatter := some .fHex })
    else if c = 'p' then
      (1, { spec with flags := spec.flags ||| FMT_FLAG_ALT, argtype := .VOIDPTR,
                      formatter := some .fHex })
    else resolve_fallback reg spec
  else if spec.type_len = 2 then
    if spec.type.getD 0 nulChar = 'z' then
      let c := spec.type.getD 1 nulChar
      if c = 'd' then (1, { spec with argtype := .SIZE, formatter := some .fSigned })
      else if c = 'u' then (1, { spec with argtype := .SIZE, formatter := some .fUnsigned })
      else if c = 'b' then (1, { spec with argtype := .SIZE, formatter := some .fBinary })
      else if c = 'o' then (1, { spec with argtype := .SIZE, formatter := some .fOctal })
      else if c = 'X' then
        (1, { spec with flags := spec.flags ||| FMT_FLAG_UPPER, argtype := .SIZE,
                        formatter := some .fHex })
      else if c = 'x' then (1, { spec with argtype := .SIZE, formatter := some .fHex })
      else resolve_fallback reg spec
    else resolve_fallback reg spec
  else if spec.type_len = 3 then
    if spec.type.take 3 = ['l', 'l', 'd'] then
      (1, { spec with argtype := .INT32, formatter := some .fSigned })
    else if spec.type.take 3 = ['l', 'l', 'u'] then
      (1, { spec with argtype := .UINT64, formatter := some .fUnsigned })
    else if spec.type.take 3 = ['l', 'l', 'b'] then
      (1, { spec with argtype := .UINT64, formatter := some .fBinary })
    else if spec.type.take 3 = ['l', 'l', 'o'] then
      (1, { spec with argtype := .UINT64, formatter := some .fOctal })
    else if spec.type.take 3 = ['l', 'l', 'X'] then
      (1, { spec with flags := spec.flags ||| FMT_FLAG_UPPER, argtype := .UINT64,
                      formatter := some .fHex })
    else if spec.type.take 3 = ['l', 'l', 'x'] then
      (1, { spec with argtype := .UINT64, formatter := some .fHex })
    else resolve_fallback reg spec
  else resolve_fallback reg spec

/-- `fmtlib_format` (declared in the header in src; its body is
`fmtlib_format_spec`, fmtlib.c lines 558-567): an empty tag applies
alignment only; a missing formatter writes nothing; custom formatters are
host code outside the model (all theorems below use an empty registry). -/
def fmtlib_format (buffer : FmtBuffer) (spec : FmtSpec) : Nat × FmtBuffer :=
  if spec.type_len = 0 then apply_alignment buffer spec [] 0
  else
    match spec.formatter with
    | none => (0, buffer)
    | some .fSigned => fmtlib_format_signed buffer spec
    | some .fUnsigned => fmtlib_format_unsigned buffer spec
    | some .fBinary => fmtlib_format_binary buffer spec
    | some .fOctal => fmtlib_format_octal buffer spec
    | some .fHex => fmtlib_format_hex buffer spec
    | some .fDouble => fmtlib_format_double buffer spec
    | some .fString => fmtlib_format_string buffer spec
    | some .fChar => fmtlib_format_char buffer spec
    | some (.fCustom _) => (0, buffer)

-- ==========================================================================
-- fmt.c: the specifier parser (lines 32-234).
-- The `goto` targets parse_flags / parse_width / parse_precision /
-- parse_type / early_exit become the `pfs_*` functions below; each section
-- falls through into the next exactly as the source does, and the quick
-- check after `:` jumps into the middle of the chain.
-- ==========================================================================

/-- `read_int` (fmt.c lines 32-38): scans the digit run and converts it.
`fmtlib_atoi` is only declared in src; modelled from the spec: conversion of
a decimal literal.  The fuel (always passed ≥ the remaining template length)
bounds the scan; past the end `chAt` is NUL, which is not a digit. -/
def read_int_aux (t : List Char) : Nat → Nat → Nat → Nat × Nat
  | 0, pos, acc => (acc, pos)
  | fuel + 1, pos, acc =>
    if isDigit (chAt t pos) then read_int_aux t fuel (pos + 1) (acc * 10 + digitVal (chAt t pos))
    else (acc, pos)

/-- `read_int`: value and position after the digit run. -/
def read_int (t : List Char) (pos : Nat) : Nat × Nat :=
  read_int_aux t (t.length + 1) pos 0

/-- `while (*ptr && *ptr != '}') ptr++` — the type scan and the early-exit
resynchronisation scan. -/
def skipToRb (t : List Char) : Nat → Nat → Nat
  | 0, pos => pos
  | fuel + 1, pos =>
    if chAt t pos = nulChar ∨ chAt t pos = '}' then pos else skipToRb t fuel (pos + 1)

/-- The `parse_flags` loop (fmt.c lines 126-138): consumes `#`, `!`, `0`,
`+` and space, accumulating flags; `0` also sets the fill character. -/
def parse_flags_loop (t : List Char) : Nat → Nat → Nat → Char → Nat × Nat × Char
  | 0, pos, flags, fill => (pos, flags, fill)
  | fuel + 1, pos, flags, fill =>
    let c := chAt t pos
    if c = '#' then parse_flags_loop t fuel (pos + 1) (flags ||| FMT_FLAG_ALT) fill
    else if c = '!' then parse_flags_loop t fuel (pos + 1) (flags ||| FMT_FLAG_UPPER) fill
    else if c = '0' then parse_flags_loop t fuel (pos + 1) (flags ||| FMT_FLAG_ZERO) '0'
    else if c = '+' then parse_flags_loop t fuel (pos + 1) (flags ||| FMT_FLAG_SIGN) fill
    else if c = ' ' then parse_flags_loop t fuel (pos + 1) (flags ||| FMT_FLAG_SPACE) fill
    else (pos, flags, fill)

/-- In-flight parser state: the local variables of `parse_fmt_spec` while a
specifier is being parsed (`ptr` is the scan offset, `nai` the
`new_arg_index` copy of the implicit counter). -/
structure PfsSt where
  ptr : Nat
  index : Nat
  flags : Nat
  width_or_index : Nat
  width_is_index : Bool
  precision_or_index : Nat
  precision_is_index : Bool
  align : FmtAlign
  fill_char : Char
  nai : Nat
deriving Repr

/-- `early_exit` (fmt.c lines 223-231): skip from the start of the specifier
to just past the next `}` (or to the end), report an invalid record and leave
the caller's counters untouched. -/
def pfs_early (t : List Char) (pos0 ai0 ac0 : Nat) : Nat × ParsedSpec × Nat × Nat :=
  let e := skipToRb t (t.length + 1) pos0
  ((e - pos0) + (if chAt t e = '}' then 1 else 0), parsedZero, ai0, ac0)

/-- `parse_type` and the success epilogue (fmt.c lines 190-219): scan the tag
up to `}`, then store the record and update the implicit counter and the
high-water argument count. -/
def pfs_type (t : List Char) (pos0 ai0 ac0 : Nat) (s : PfsSt) : Nat × ParsedSpec × Nat × Nat :=
  let e := skipToRb t (t.length + 1) s.ptr
  if chAt t e = nulChar then pfs_early t pos0 ai0 ac0
  else
    let spec : ParsedSpec :=
      { index := s.index, flags := s.flags,
        width_or_index := s.width_or_index, width_is_index := s.width_is_index,
        precision_or_index := s.precision_or_index, precision_is_index := s.precision_is_index,
        align := s.align, fill_char := s.fill_char,
        type_pos := s.ptr, type_len := e - s.ptr, valid := true }
    let mai := s.index
    let mai := if s.width_is_index then max mai s.width_or_index else mai
    let mai := if s.precision_is_index then max mai s.precision_or_index else mai
    (e - pos0 + 1, spec, s.nai, max ac0 (mai + 1))

/-- `parse_precision` (fmt.c lines 163-187) and fall-through to the type
section.  Note the `*`-with-no-digit branch (lines 178-183): it records the
next implicit index in `precision_or_index` and advances the counter, but
sets `precision_is_index = false` — unlike the corresponding width branch. -/
def pfs_precision (t : List Char) (maxArgs pos0 ai0 ac0 : Nat) (s : PfsSt) :
    Nat × ParsedSpec × Nat × Nat :=
  if chAt t s.ptr = '.' then
    let p1 := s.ptr + 1
    if isDigit (chAt t p1) then
      let r := read_int t p1
      pfs_type t pos0 ai0 ac0
        { s with ptr := r.2, precision_or_index := r.1, precision_is_index := false }
    else if chAt t p1 = '*' then
      let p2 := p1 + 1
      if chAt t p2 = nulChar then pfs_early t pos0 ai0 ac0
      else if isDigit (chAt t p2) then
        let r := read_int t p2
        if r.1 ≥ maxArgs then pfs_early t pos0 ai0 ac0
        else pfs_type t pos0 ai0 ac0
          { s with ptr := r.2, precision_or_index := r.1, precision_is_index := true }
      else
        if s.nai ≥ maxArgs then pfs_early t pos0 ai0 ac0
        else pfs_type t pos0 ai0 ac0
          { s with ptr := p2, precision_or_index := s.nai, precision_is_index := false,
                   nai := s.nai + 1 }
    else pfs_early t pos0 ai0 ac0
  else pfs_type t pos0 ai0 ac0 s

/-- `parse_width` (fmt.c lines 142-160), the `CHECK_EOF` between width and
precision (line 163), and fall-through to the precision section. -/
def pfs_width (t : List Char) (maxArgs pos0 ai0 ac0 : Nat) (s : PfsSt) :
    Nat × ParsedSpec × Nat × Nat :=
  let cont := fun (s : PfsSt) =>
    if chAt t s.ptr = '}' then pfs_type t pos0 ai0 ac0 s
    else if chAt t s.ptr = nulChar then pfs_early t pos0 ai0 ac0
    else pfs_precision t maxArgs pos0 ai0 ac0 s
  if isDigit (chAt t s.ptr) then
    let r := read_int t s.ptr
    cont { s with ptr := r.2, width_or_index := r.1, width_is_index := false }
  else if chAt t s.ptr = '*' then
    let p1 := s.ptr + 1
    if chAt t p1 = nulChar then pfs_early t pos0 ai0 ac0
    else if isDigit (chAt t p1) then
      let r := read_int t p1
      if r.1 ≥ maxArgs then pfs_early t pos0 ai0 ac0
      else cont { s with ptr := r.2, width_or_index := r.1, width_is_index := true }
    else
      if s.nai ≥ maxArgs then pfs_early t pos0 ai0 ac0
      else cont { s with ptr := p1, width_or_index := s.nai, width_is_index := true,
                         nai := s.nai + 1 }
  else cont s

/-- `parse_flags` entry (fmt.c lines 123-138) with the `CHECK_EOF` between
flags and width (line 141), then fall-through to the width section. -/
def pfs_flags (t : List Char) (maxArgs pos0 ai0 ac0 : Nat) (s : PfsSt) :
    Nat × ParsedSpec × Nat × Nat :=
  let r := parse_flags_loop t (t.length + 1) s.ptr s.flags s.fill_char
  let s := { s with ptr := r.1, flags := r.2.1, fill_char := r.2.2 }
  if chAt t s.ptr = '}' then pfs_type t pos0 ai0 ac0 s
  else if chAt t s.ptr = nulChar then pfs_early t pos0 ai0 ac0
  else pfs_width t maxArgs pos0 ai0 ac0 s

/-- The align section (fmt.c lines 102-124): optional `$fill` followed by a
mandatory alignment marker, the `<`/`^`/`>` switch (with no default error),
then the `CHECK_EOF` before the flags section. -/
def pfs_align (t : List Char) (maxArgs pos0 ai0 ac0 : Nat) (s : PfsSt) :
    Nat × ParsedSpec × Nat × Nat :=
  let cont := fun (s : PfsSt) =>
    let c := chAt t s.ptr
    let s :=
      if c = '<' then { s with align := FmtAlign.left, ptr := s.ptr + 1 }
      else if c = '^' then { s with align := FmtAlign.center, ptr := s.ptr + 1 }
      else if c = '>' then { s with align := FmtAlign.right, ptr := s.ptr + 1 }
      else s
    if chAt t s.ptr = '}' then pfs_type t pos0 ai0 ac0 s
    else if chAt t s.ptr = nulChar then pfs_early t pos0 ai0 ac0
    else pfs_flags t maxArgs pos0 ai0 ac0 { s with flags := 0 }
  if chAt t s.ptr = '}' then pfs_type t pos0 ai0 ac0 s
  else if chAt t s.ptr = nulChar then pfs_early t pos0 ai0 ac0
  else if chAt t s.ptr = '$' then
    let p1 := s.ptr + 1
    if chAt t p1 = nulChar then pfs_early t pos0 ai0 ac0
    else
      let s := { s with fill_char := chAt t p1, ptr := p1 + 1 }
      if !isAlign (chAt t s.ptr) then pfs_early t pos0 ai0 ac0
      else cont s
  else cont s

/-- `parse_fmt_spec` (fmt.c lines 40-234).  Returns the consumed length, the
parsed record, and the updated implicit-index counter and high-water argument
count (both updated only when the record is valid).  When the byte at `pos`
is not `{` the C returns 0 without touching the record (never reached from
the driver). -/
def parse_fmt_spec (t : List Char) (maxArgs pos ai0 ac0 : Nat) :
    Nat × ParsedSpec × Nat × Nat :=
  if chAt t pos ≠ '{' then (0, parsedZero, ai0, ac0)
  else
    let s0 : PfsSt :=
      { ptr := pos + 1, index := 0, flags := 0, width_or_index := 0,
        width_is_index := false, precision_or_index := 0, precision_is_index := false,
        align := .left, fill_char := ' ', nai := ai0 }
    let c1 := chAt t s0.ptr
    if c1 = '}' then pfs_type t pos ai0 ac0 s0
    else if c1 = nulChar then pfs_early t pos ai0 ac0
    else
      let s1 : Option PfsSt :=
        if isDigit c1 then
          let r := read_int t s0.ptr
          if r.1 ≥ maxArgs then none
          else some { s0 with ptr := r.2, index := r.1 }
        else
          if s0.nai ≥ maxArgs then none
          else some { s0 with index := s0.nai, nai := s0.nai + 1 }
      match s1 with
      | none => pfs_early t pos ai0 ac0
      | some s =>
        if chAt t s.ptr = '}' then pfs_type t pos ai0 ac0 s
        else if chAt t s.ptr = ':' then
          let s := { s with ptr := s.ptr + 1 }
          let c3 := chAt t s.ptr
          if isAlpha c3 then pfs_type t pos ai0 ac0 s
          else if c3 = '0' then pfs_flags t maxArgs pos ai0 ac0 s
          else if isDigit c3 then pfs_width t maxArgs pos ai0 ac0 s
          else if c3 = '.' then pfs_precision t maxArgs pos ai0 ac0 s
          else pfs_align t maxArgs pos ai0 ac0 s
        else pfs_early t pos ai0 ac0

-- ==========================================================================
-- fmt.c: the format driver (lines 238-437).
-- `FMT_MAX_SPECS` and `FMT_MAX_ARGS` live in fmt.h, which is not under src/.
-- Modelled from the spec: both are fixed compile-time constants (the spec
-- gives no value for `FMT_MAX_SPECS` and only `≥ 16` for `FMT_MAX_ARGS`),
-- so the driver is parametric in `maxSpecs`, and `max_args` is the C
-- parameter of `fmt_format` as in the source.
-- ==========================================================================

/-- `LOAD_ARG` (fmt.c lines 239-248): reads one value slot according to the
recorded size.  Sizes 4 and 8 consume the next variadic argument; size 0 and
any other size (the `default` case) store NULL without consuming.  Returns
the slot payload and the new cursor position. -/
def load_arg (args : List CArg) (size : Int) (cursor : Nat) : Value × Nat :=
  if size = 4 then (some (.pint (va_arg_int args cursor)), cursor + 1)
  else if size = 8 then (some (va_arg_u64 args cursor), cursor + 1)
  else (none, cursor)

/-- The argument-loading `for` loop (fmt.c lines 360-363 and 390-393):
iterates `count` times from slot `i`, filling `values` and advancing the
cursor.  Returns the values array, the cursor, and the new
`loaded_arg_count`. -/
def load_args_aux (args : List CArg) (sizes : Nat → Int) :
    Nat → (Nat → Value) → Nat → Nat → (Nat → Value) × Nat × Nat
  | 0, vals, cursor, i => (vals, cursor, i)
  | k + 1, vals, cursor, i =>
    let r := load_arg args (sizes i) cursor
    load_args_aux args sizes k (updF vals i r.1) r.2 (i + 1)

/-- `*(int *)values[i]` (fmt.c lines 367, 370, 415, 418): the C dereferences
the stored integer register value as a pointer to int — undefined behavior.
Modelled as reading the stored integer; no theorem below exercises this
path (`width_is_index`/`precision_is_index` loads never reach it in the
traces proved here). -/
def derefInt : Value → Int
  | some (.pint n) => n
  | _ => 0

/-- The local state of `fmt_format` while scanning (fmt.c lines 250-285). -/
structure DrvState where
  pos : Nat
  n : Nat
  buf : FmtBuffer
  singlePass : Bool
  argIndex : Nat
  argCount : Nat
  loadedArgCount : Nat
  argSizes : Nat → Int
  values : Nat → Value
  specIndex : Nat
  passTwoStart : Nat
  passTwoIndex : Nat
  specs : Nat → FmtSpec
  parsedSpecs : Nat → ParsedSpec
  cursor : Nat

/-- The state at entry of the scan loop (fmt.c lines 250-285). -/
def init_state (cap : Nat) : DrvState :=
  { pos := 0, n := 0, buf := fmt_buffer cap, singlePass := true,
    argIndex := 0, argCount := 0, loadedArgCount := 0,
    argSizes := fun _ => 0, values := fun _ => none,
    specIndex := 0, passTwoStart := 0, passTwoIndex := 0,
    specs := fun _ => specZero, parsedSpecs := fun _ => parsedZero,
    cursor := 0 }

/-- Exit condition of the first scan loop: `while (*ptr && !full)`. -/
def exitCond (t : List Char) (st : DrvState) : Bool :=
  chAt t st.pos = nulChar || fmt_buffer_full st.buf

set_option maxHeartbeats 1000000 in
/-- One iteration of the first scan loop (fmt.c lines 286-381).  Every path
of the loop body ends in `continue` or falls to the loop end, so the body is
a pure state transformer.  Note the `continue` at line 299 when the
specifier budget is exhausted: it leaves the state — including `ptr` —
unchanged. -/
def step_fn (maxSpecs maxArgs : Nat) (reg : List RegEntry) (t : List Char)
    (args : List CArg) (st : DrvState) : DrvState :=
  if chAt t st.pos = '{' then
    if chAt t (st.pos + 1) = '{' then
      if st.singlePass then
        let r := fmt_buffer_write_char st.buf '{'
        { st with n := st.n + r.1, buf := r.2, pos := st.pos + 2 }
      else { st with pos := st.pos + 2 }
    else
      if st.specIndex ≥ maxSpecs then st
      else
        let cur := st.specIndex
        let st := { st with specIndex := cur + 1 }
        let pr := parse_fmt_spec t maxArgs st.pos st.argIndex st.argCount
        let m := pr.1
        let pspec := pr.2.1
        let ai := pr.2.2.1
        let ac := pr.2.2.2
        let st := { st with
          pos := st.pos + m,
          specs := updF st.specs cur { st.specs cur with end_offset := st.pos + m },
          parsedSpecs := updF st.parsedSpecs cur pspec }
        if pspec.valid = false then st
        else
          let st := { st with argIndex := ai, argCount := ac }
          let st := { st with
            singlePass := if st.singlePass ∧ ac > ai + 1 then false else st.singlePass,
            passTwoStart := if st.singlePass ∧ ac > ai + 1 then st.pos - m
              else st.passTwoStart,
            passTwoIndex := if st.singlePass ∧ ac > ai + 1 then cur
              else st.passTwoIndex }
          let sp := st.specs cur
          let sp := { sp with
            type := (t.drop pspec.type_pos).take (min pspec.type_len FMTLIB_MAX_TYPE_LEN),
            type_len := pspec.type_len, value := none, flags := pspec.flags,
            align := pspec.align, fill_char := pspec.fill_char }
          let rr := fmtlib_resolve_type reg sp
          let arg_size := rr.1
          let sp := rr.2
          let st := { st with argSizes := updF st.argSizes pspec.index arg_size }
          let sp := { sp with
            width := if pspec.width_is_index then sp.width else (pspec.width_or_index : Int) }
          let st := { st with
            argSizes := if pspec.width_is_index then
              updF st.argSizes pspec.width_or_index 4 else st.argSizes }
          let sp := { sp with
            precision := if pspec.precision_is_index then sp.precision
              else (pspec.precision_or_index : Int) }
          let st := { st with
            argSizes := if pspec.precision_is_index then
              updF st.argSizes pspec.precision_or_index 4 else st.argSizes }
          let st := { st with specs := updF st.specs cur sp }
          if st.singlePass = false then st
          else if arg_size < 0 then
            let r0 := wadd (st.n, st.buf) (fmt_buffer_write ·
              ['{', 'b', 'a', 'd', ' ', 't', 'y', 'p', 'e', ':', ' '] 11)
            let r1 := wadd r0 (fmt_buffer_write · sp.type pspec.type_len)
            let r2 := wadd r1 (fmt_buffer_write_char · '}')
            { st with n := r2.1, buf := r2.2 }
          else if arg_size = 0 then
            let r := fmtlib_format st.buf sp
            { st with n := st.n + r.1, buf := r.2 }
          else
            let lr := load_args_aux args st.argSizes (st.argCount - st.loadedArgCount)
              st.values st.cursor st.loadedArgCount
            let st := { st with values := lr.1, cursor := lr.2.1, loadedArgCount := lr.2.2 }
            let sp := { sp with value := st.values pspec.index }
            let sp :=
              if pspec.width_is_index then
                { sp with width := derefInt (st.values pspec.width_or_index) }
              else sp
            let sp :=
              if pspec.precision_is_index then
                { sp with precision := derefInt (st.values pspec.precision_or_index) }
              else sp
            let st := { st with specs := updF st.specs cur sp }
            let r := fmtlib_format st.buf sp
            { st with n := st.n + r.1, buf := r.2 }
  else
    if st.singlePass then
      let r := fmt_buffer_write_char st.buf (chAt t st.pos)
      { st with n := st.n + r.1, buf := r.2, pos := st.pos + 1 }
    else { st with pos := st.pos + 1 }

/-- The first scan loop (fmt.c line 286): runs `step_fn` until the exit
condition holds; `none` when the fuel runs out — in particular for every
fuel when the loop does not terminate. -/
def driver_loop (maxSpecs maxArgs : Nat) (reg : List RegEntry) (t : List Char)
    (args : List CArg) : Nat → DrvState → Option DrvState
  | 0, _ => none
  | fuel + 1, st =>
    if exitCond t st then some st
    else driver_loop maxSpecs maxArgs reg t args fuel (step_fn maxSpecs maxArgs reg t args st)

/-- Exit condition of the second-pass loop (fmt.c line 399):
`while (*ptr && !full && index < spec_index)`. -/
def exitCond2 (t : List Char) (specIndex : Nat) (pos idx : Nat) (buf : FmtBuffer) : Bool :=
  chAt t pos = nulChar || fmt_buffer_full buf || specIndex ≤ idx

/-- One iteration of the second-pass loop (fmt.c lines 399-427).  An invalid
recorded specifier advances `index` but not the scan position (the source
`continue` at line 411 does not move `ptr`). -/
def second_step (t : List Char) (specs : Nat → FmtSpec) (parsedSpecs : Nat → ParsedSpec)
    (values : Nat → Value) (pos idx n : Nat) (buf : FmtBuffer) :
    Nat × Nat × Nat × FmtBuffer :=
  if chAt t pos = '{' then
    if chAt t (pos + 1) = '{' then
      let r := fmt_buffer_write_char buf '{'
      (pos + 2, idx, n + r.1, r.2)
    else
      let ps := parsedSpecs idx
      let sp := specs idx
      let idx := idx + 1
      if ps.valid = false then (pos, idx, n, buf)
      else
        let sp := { sp with value := values ps.index }
        let sp :=
          if ps.width_is_index then { sp with width := derefInt (values ps.width_or_index) }
          else sp
        let sp :=
          if ps.precision_is_index then
            { sp with precision := derefInt (values ps.precision_or_index) }
          else sp
        let r := fmtlib_format buf sp
        (sp.end_offset, idx, n + r.1, r.2)
  else
    let r := fmt_buffer_write_char buf (chAt t pos)
    (pos + 1, idx, n + r.1, r.2)

/-- The second-pass loop (fmt.c lines 397-427). -/
def second_loop (t : List Char) (specs : Nat → FmtSpec) (parsedSpecs : Nat → ParsedSpec)
    (values : Nat → Value) (specIndex : Nat) :
    Nat → Nat → Nat → Nat → FmtBuffer → Option (Nat × Nat × FmtBuffer)
  | 0, _, _, _, _ => none
  | fuel + 1, pos, idx, n, buf =>
    if exitCond2 t specIndex pos idx buf then some (pos, n, buf)
    else
      let r := second_step t specs parsedSpecs values pos idx n buf
      second_loop t specs parsedSpecs values specIndex fuel r.1 r.2.1 r.2.2.1 r.2.2.2

/-- The trailing copy loop (fmt.c lines 429-432): writes the rest of the
template verbatim until the terminator or a full buffer. -/
def write_rest (t : List Char) : Nat → Nat → Nat → FmtBuffer → Option (Nat × FmtBuffer)
  | 0, _, _, _ => none
  | fuel + 1, pos, n, buf =>
    if chAt t pos = nulChar ∨ fmt_buffer_full buf then some (n, buf)
    else
      let r := fmt_buffer_write_char buf (chAt t pos)
      write_rest t fuel (pos + 1) (n + r.1) r.2

/-- `fmt_format` (fmt.c lines 238-437): the full driver.  `maxSpecs` stands
for the compile-time `FMT_MAX_SPECS` (fmt.h is not under src/), `reg` for
the global type registry, `args` for the variadic list, `cap` for the output
capacity.  The result is the returned byte count and the final buffer;
`none` when the fuel is exhausted — for every fuel on non-terminating
inputs. -/
def fmt_format (maxSpecs maxArgs : Nat) (reg : List RegEntry) (fuel : Nat)
    (t : List Char) (args : List CArg) (cap : Nat) : Option (Nat × FmtBuffer) :=
  match driver_loop maxSpecs maxArgs reg t args fuel (init_state cap) with
  | none => none
  | some st =>
    if st.singlePass then some (st.n, st.buf)
    else
      let lr := load_args_aux args st.argSizes (st.argCount - st.loadedArgCount)
        st.values st.cursor st.loadedArgCount
      match second_loop t st.specs st.parsedSpecs lr.1 st.specIndex fuel
          st.passTwoStart st.passTwoIndex st.n st.buf with
      | none => none
      | some r => write_rest t fuel r.1 r.2.1 r.2.2

/-- The returned byte count and the written prefix of the output region. -/
def fmtRun (maxSpecs maxArgs : Nat) (reg : List RegEntry) (fuel : Nat)
    (t : List Char) (args : List CArg) (cap : Nat) : Option (Nat × List Char) :=
  (fmt_format maxSpecs maxArgs reg fuel t args cap).map fun r => (r.1, r.2.out)

-- ==========================================================================
-- Invariants used to verify the output-buffer contract, and the §4.5
-- alignment function written from the spec's words (for claim C10).
-- ==========================================================================

/-- Well-formedness of a buffer created with capacity `cap`: the write
counter equals the written prefix and the prefix plus the remaining room
fill the usable window `cap - 1`. -/
def InvB (cap : Nat) (b : FmtBuffer) : Prop :=
  b.written = b.out.length ∧ b.out.length + b.size = cap - 1

/-- A buffer operation that preserves `InvB` and returns exactly the number
of bytes it appended. -/
def WOp (cap : Nat) (f : FmtBuffer → Nat × FmtBuffer) : Prop :=
  ∀ b, InvB cap b → InvB cap (f b).2 ∧ (f b).2.written = b.written + (f b).1

/-- Invariant of a running `(n, buffer)` pair that started as `(n0, b0)`. -/
def PAcc (cap : Nat) (b0 : FmtBuffer) (n0 : Nat) (r : Nat × FmtBuffer) : Prop :=
  InvB cap r.2 ∧ r.2.written + n0 = b0.written + r.1

/-- Invariant of the driver state: the running count `n` equals the bytes
written to a well-formed buffer. -/
def Acct (cap : Nat) (st : DrvState) : Prop :=
  st.n = st.buf.written ∧ InvB cap st.buf

/-- Invariant of a second-pass `(pos, idx, count, buffer)` tuple. -/
def SAcct (cap : Nat) (r : Nat × Nat × Nat × FmtBuffer) : Prop :=
  r.2.2.1 = r.2.2.2.written ∧ InvB cap r.2.2.2

/-- §4.5 of the spec, by its words: pad `text` to `width` with `fill` on the
side selected by the alignment (used to state claim C10 against the code's
`apply_alignment`). -/
def spec_aligned (align : FmtAlign) (fill : Char) (width : Nat) (text : List Char) :
    List Char :=
  if width ≤ text.length then text
  else
    let pad := width - text.length
    match align with
    | .left => text ++ List.replicate pad fill
    | .right => List.replicate pad fill ++ text
    | .center =>
      List.replicate (pad / 2) fill ++ text ++ List.replicate (pad - pad / 2) fill

-- ==========================================================================
-- Theorems.
-- ==========================================================================

/-- **C7.**  Parsing `{:.*f}`: the `.*` (no digit) branch records the next
implicit argument index (1, since the implicit value index 0 was consumed)
in `precision_or_index` and advances the implicit counter to 2, but marks
`precision_is_index = false`, so the recorded number is later used as a
literal precision instead of being resolved from that argument's value.
Parsing `{1:.*3d}` shows the `.*N` branch: index 3 recorded with
`precision_is_index = true` and the implicit counter not advanced. -/
theorem claim_C7_precision_star :
    (parse_fmt_spec ['{', ':', '.', '*', 'f', '}'] 16 0 0 0).2.1.precision_or_index = 1
    ∧ (parse_fmt_spec ['{', ':', '.', '*', 'f', '}'] 16 0 0 0).2.1.precision_is_index = false
    ∧ (parse_fmt_spec ['{', ':', '.', '*', 'f', '}'] 16 0 0 0).2.2.1 = 2
    ∧ (parse_fmt_spec ['{', '1', ':', '.', '*', '3', 'd', '}'] 16 0 0 0).2.1.precision_or_index = 3
    ∧ (parse_fmt_spec ['{', '1', ':', '.', '*', '3', 'd', '}'] 16 0 0 0).2.1.precision_is_index = true
    ∧ (parse_fmt_spec ['{', '1', ':', '.', '*', '3', 'd', '}'] 16 0 0 0).2.2.1 = 0 := by
  decide

/-- **C8.**  Resolving the one-byte tag `c`: because the source lacks a
`return` after the `case 'c'` assignments, control falls through into
`case 'p'`, so the specifier ends up with argument kind `VOIDPTR`, the hex
formatter and the ALT flag forced — not int32 with the single-character
formatter as the claim states. -/
theorem claim_C8_resolve_c :
    (fmtlib_resolve_type [] { specZero with type := ['c'], type_len := 1 }).2.argtype
      = FmtArgType.VOIDPTR
    ∧ (fmtlib_resolve_type [] { specZero with type := ['c'], type_len := 1 }).2.formatter
      = some Formatter.fHex
    ∧ hasFlag (fmtlib_resolve_type [] { specZero with type := ['c'], type_len := 1 }).2.flags
      FMT_FLAG_ALT = true
    ∧ (fmtlib_resolve_type [] { specZero with type := ['c'], type_len := 1 }).1 = 1 := by
  decide

/-- **C4.**  Formatting `{:q}` with an empty registry emits nothing: the
claim says the driver emits the literal `\x7bbad type: q\x7d`, but
`fmtlib_resolve_type` returns `0` for an unknown tag (never the `-1` its
header comment documents), so the driver's `arg_size < 0` bad-type branch
is dead and the `arg_size == 0` branch calls `fmtlib_format`, which writes
nothing for a missing formatter. -/
theorem claim_C4_unknown_type :
    fmtRun 16 16 [] 20 ['{', ':', 'q', '}'] [] 64 = some (0, [])
    ∧ ¬(([] : List Char)
        = ['{', 'b', 'a', 'd', ' ', 't', 'y', 'p', 'e', ':', ' ', 'q', '}']) := by
  decide

/-- **C9.**  Formatting `{:4d}` with argument 42 produces `0   `, not the
claimed `  42`: the value loads as NULL (formatted as 0) because
`fmtlib_resolve_type` returns 1, a size `LOAD_ARG` does not recognise, and
the default alignment is left-justification, which puts the padding after
the digits. -/
theorem claim_C9_width_default_align :
    fmtRun 16 16 [] 20 ['{', ':', '4', 'd', '}'] [.aint 42] 64
      = some (4, ['0', ' ', ' ', ' '])
    ∧ ¬((['0', ' ', ' ', ' '] : List Char) = [' ', ' ', '4', '2']) := by
  decide

/-- **C3.**  Formatting `{1:d}, {0:.2f}` with arguments (3.14, 42) — 3.14
given as the exact value of the IEEE double — produces `0, 0.00`, not the
claimed `42, 3.14`: the driver does switch to two-pass mode and re-scan
from the point where two-pass began, but both value slots load as NULL
(`fmtlib_resolve_type` returns 1, which `LOAD_ARG` maps to NULL without
consuming the cursor), so the specifiers format 0 and 0.0. -/
theorem claim_C3_two_pass :
    fmtRun 16 16 [] 30 ['{', '1', ':', 'd', '}', ',', ' ', '{', '0', ':', '.', '2', 'f', '}']
      [.adbl ((7070651414971679 : ℚ) / 2251799813685248), .aint 42] 64
      = some (7, ['0', ',', ' ', '0', '.', '0', '0'])
    ∧ ¬((['0', ',', ' ', '0', '.', '0', '0'] : List Char)
        = ['4', '2', ',', ' ', '3', '.', '1', '4']) := by
  decide

/-- A state the scan loop can never leave: if the exit condition is false
and one iteration returns the state unchanged, the loop diverges (returns
`none` for every fuel).  This is the situation at a non-escaped `{` once
`spec_index` has reached `FMT_MAX_SPECS`: the `continue` at fmt.c line 299
does not advance `ptr`. -/
theorem driver_loop_stuck (maxSpecs maxArgs : Nat) (reg : List RegEntry)
    (t : List Char) (args : List CArg) (st : DrvState)
    (hexit : exitCond t st = false)
    (hstep : step_fn maxSpecs maxArgs reg t args st = st) :
    ∀ fuel, driver_loop maxSpecs maxArgs reg t args fuel st = none := by
  intro fuel
  induction fuel with
  | zero => rfl
  | succ f ih =>
    rw [driver_loop, hexit, hstep]
    simpa using ih

/-- **C2.**  A format call does not terminate once the template holds more
specifiers than the `FMT_MAX_SPECS` cap: with cap 1, formatting
`{:d}{:d}` loops forever (the result is `none` for every fuel), because the
`continue` taken when `spec_index ≥ FMT_MAX_SPECS` does not advance the
scan pointer.  The claim says the call terminates and the excess specifiers
are skipped silently. -/
theorem claim_C2_spec_cap_diverges (fuel : Nat) :
    fmt_format 1 16 [] fuel ['{', ':', 'd', '}', '{', ':', 'd', '}']
      [.aint 1, .aint 2] 64 = none := by
  cases fuel with
  | zero => rfl
  | succ f =>
    have h1 : driver_loop 1 16 [] ['{', ':', 'd', '}', '{', ':', 'd', '}']
        [.aint 1, .aint 2] (f + 1) (init_state 64)
        = driver_loop 1 16 [] ['{', ':', 'd', '}', '{', ':', 'd', '}']
          [.aint 1, .aint 2] f
          (step_fn 1 16 [] ['{', ':', 'd', '}', '{', ':', 'd', '}']
            [.aint 1, .aint 2] (init_state 64)) := by
      rw [driver_loop]
      norm_num [show exitCond ['{', ':', 'd', '}', '{', ':', 'd', '}'] (init_state 64)
        = false from rfl]
    have h2 : driver_loop 1 16 [] ['{', ':', 'd', '}', '{', ':', 'd', '}']
        [.aint 1, .aint 2] (f + 1) (init_state 64) = none := by
      rw [h1]
      exact driver_loop_stuck 1 16 [] _ _ _ (by rfl) (by rfl) f
    rw [fmt_format, h2]

/-- **C5 (counterexample).**  Formatting the template `}}` emits two `}`
bytes, not exactly one: `}` is not treated as an escape anywhere in the
scan loop, each `}` outside a specifier is copied through. -/
theorem claim_C5_counterexample :
    fmtRun 16 16 [] 12 ['}', '}'] [] 8 = some (2, ['}', '}'])
    ∧ ¬((['}', '}'] : List Char) = ['}']) := by
  decide

/-- **C5 (amended).**  Brace handling, loop by loop.  In the driver's two
scan loops — one iteration of the single-pass scan, and one iteration of
the second-pass re-scan while recorded specifiers remain — a `{{` at the
scan position emits exactly one `{`, consumes both bytes and starts no
specifier parse; a `}` — like any byte other than `{` — is copied through
unchanged, so `}}` emits two `}` bytes rather than one.  In the trailing
copy region of two-pass mode (after the last recorded specifier has been
re-emitted, fmt.c lines 429-432) there is no escape handling at all: even
a `{{` is copied verbatim, so `{1:d}{{` formats to the three bytes
`0`, `{`, `{` (last conjunct). -/
theorem claim_C5_brace_escapes (maxSpecs maxArgs : Nat) (reg : List RegEntry)
    (t : List Char) (args : List CArg) (st : DrvState)
    (specs : Nat → FmtSpec) (parsedSpecs : Nat → ParsedSpec) (values : Nat → Value)
    (pos idx n : Nat) (buf : FmtBuffer) :
    ((st.singlePass = true ∧ chAt t st.pos = '{' ∧ chAt t (st.pos + 1) = '{') →
      step_fn maxSpecs maxArgs reg t args st =
        { st with n := st.n + (fmt_buffer_write_char st.buf '{').1,
                  buf := (fmt_buffer_write_char st.buf '{').2,
                  pos := st.pos + 2 })
    ∧ ((st.singlePass = true ∧ chAt t st.pos ≠ '{') →
      step_fn maxSpecs maxArgs reg t args st =
        { st with n := st.n + (fmt_buffer_write_char st.buf (chAt t st.pos)).1,
                  buf := (fmt_buffer_write_char st.buf (chAt t st.pos)).2,
                  pos := st.pos + 1 })
    ∧ ((chAt t pos = '{' ∧ chAt t (pos + 1) = '{') →
      second_step t specs parsedSpecs values pos idx n buf =
        (pos + 2, idx, n + (fmt_buffer_write_char buf '{').1,
          (fmt_buffer_write_char buf '{').2))
    ∧ (chAt t pos ≠ '{' →
      second_step t specs parsedSpecs values pos idx n buf =
        (pos + 1, idx, n + (fmt_buffer_write_char buf (chAt t pos)).1,
          (fmt_buffer_write_char buf (chAt t pos)).2))
    ∧ fmtRun 16 16 [] 20 ['{', '1', ':', 'd', '}', '{', '{'] [.aint 5, .aint 6] 64
        = some (3, ['0', '{', '{']) := by
  refine ⟨?_, ?_, ?_, ?_, by decide⟩
  · intro h
    simp [step_fn, h.1, h.2.1, h.2.2]
  · intro h
    simp [step_fn, h.1, h.2]
  · intro h
    simp [second_step, h.1, h.2]
  · intro h
    simp [second_step, h]

/-- Witness for C5: the first conjunct of the amended statement at the
concrete template `{{x` in the initial state. -/
theorem claim_C5_witness :
    step_fn 16 16 [] ['{', '{', 'x'] [] (init_state 8) =
      { init_state 8 with
        n := (init_state 8).n + (fmt_buffer_write_char (init_state 8).buf '{').1,
        buf := (fmt_buffer_write_char (init_state 8).buf '{').2,
        pos := (init_state 8).pos + 2 } :=
  (claim_C5_brace_escapes 16 16 [] ['{', '{', 'x'] [] (init_state 8)
    (fun _ => specZero) (fun _ => parsedZero) (fun _ => none) 0 0 0
    (fmt_buffer 8)).1 ⟨rfl, rfl, rfl⟩

/-- Helper for C6: under the half-way hypothesis a dyadic value (the exact
value of a finite double) never has a zero scaled fraction: `frac = 0` with
`delta = 1/2` would mean the fractional part of the value is `1/(2·10^p)`,
whose reduced denominator is divisible by 5 — impossible for `m / 2^k`. -/
theorem fd_frac_ne_zero (p : ℕ) (av : ℚ) (m k : ℕ) (hp1 : 1 ≤ p)
    (hav : av = (m : ℚ) / 2 ^ k) (hhalf : fd_delta av p = 1 / 2) :
    fd_frac av p ≠ 0 := by
  intro h0
  have hav0 : 0 ≤ av := by rw [hav]; positivity
  have hwq : ((⌊av⌋.toNat : ℚ)) = ((⌊av⌋ : ℤ) : ℚ) := by
    have := Int.toNat_of_nonneg (Int.floor_nonneg.mpr hav0)
    exact_mod_cast congrArg (fun z : ℤ => (z : ℚ)) this
  have htmp : fd_tmp av p = 1 / 2 := by
    have h := hhalf
    unfold fd_delta at h
    rw [h0] at h
    simpa using h
  unfold fd_tmp at htmp
  rw [hwq] at htmp
  have h2k : ((2 : ℚ) ^ k) ≠ 0 := by positivity
  have hmq : (m : ℚ) = av * 2 ^ k := by rw [hav]; field_simp
  have e1 : ((m : ℚ) - (⌊av⌋ : ℚ) * 2 ^ k) * (2 * 10 ^ p) = 2 ^ k := by
    rw [hmq]
    linear_combination (2 * (2 : ℚ) ^ k) * htmp
  have e2 : ((m : ℤ) - ⌊av⌋ * 2 ^ k) * (2 * 10 ^ p) = 2 ^ k := by exact_mod_cast e1
  have h10 : (5 : ℤ) ∣ 10 ^ p := dvd_pow (by norm_num) (by omega)
  have h5 : (5 : ℤ) ∣ 2 ^ k := by
    rw [← e2]
    exact Dvd.dvd.mul_left (Dvd.dvd.mul_left h10 2) _
  have hp5 : Prime (5 : ℤ) := by norm_num
  have h52 : (5 : ℤ) ∣ 2 := hp5.dvd_of_dvd_pow h5
  norm_num at h52

/-- **C6.**  Round-half-to-even in `format_double`: for precision
`p ∈ [1, 9]`, when the value is the exact value of a finite double
(a dyadic rational `m / 2^k`) and the scaled fractional remainder `delta`
is exactly one half, the rounding step keeps `frac` when the digit before
the dropped half is even and increments it when odd.  The source's extra
`frac == 0` round-up case cannot fire under these hypotheses
(`fd_frac_ne_zero`). -/
theorem claim_C6_round_half_even (p : ℕ) (av : ℚ) (m k : ℕ)
    (hp1 : 1 ≤ p) (_hp9 : p ≤ 9)
    (hav : av = (m : ℚ) / 2 ^ k)
    (hhalf : fd_delta av p = 1 / 2) :
    fd_round av p =
      (⌊av⌋.toNat, if fd_frac av p % 2 = 0 then fd_frac av p
        else fd_frac av p + 1) := by
  have hne := fd_frac_ne_zero p av m k hp1 hav hhalf
  simp only [fd_round]
  rw [hhalf]
  rw [if_neg (by norm_num : ¬((1 : ℚ) / 2 > 1 / 2)),
    if_neg (by norm_num : ¬((1 : ℚ) / 2 < 1 / 2))]
  by_cases hodd : fd_frac av p % 2 = 1
  · rw [if_pos (Or.inr hodd), if_neg (by omega : ¬(fd_frac av p % 2 = 0))]
  · rw [if_neg (not_or.mpr ⟨hne, hodd⟩), if_pos (by omega : fd_frac av p % 2 = 0)]

/-- Witness for C6: formatting 0.25 (= 1/2²) at precision 1 gives the
half-way case with `frac = 2`; even, so it rounds down to `(0, 2)`. -/
theorem claim_C6_witness :
    (1 ≤ 1 ∧ 1 ≤ 9 ∧ ((1 : ℚ) / 4 = ((1 : ℕ) : ℚ) / 2 ^ 2)
      ∧ fd_delta ((1 : ℚ) / 4) 1 = 1 / 2)
    ∧ fd_round ((1 : ℚ) / 4) 1 =
        (⌊(1 : ℚ) / 4⌋.toNat,
          if fd_frac ((1 : ℚ) / 4) 1 % 2 = 0 then fd_frac ((1 : ℚ) / 4) 1
          else fd_frac ((1 : ℚ) / 4) 1 + 1) := by
  have hdelta : fd_delta ((1 : ℚ) / 4) 1 = 1 / 2 := by
    have h1 : ⌊(1 : ℚ) / 4⌋ = 0 := by norm_num
    have h2 : fd_tmp ((1 : ℚ) / 4) 1 = 5 / 2 := by
      unfold fd_tmp
      rw [h1]
      norm_num
    have h3 : fd_frac ((1 : ℚ) / 4) 1 = 2 := by
      unfold fd_frac
      rw [h2, show ⌊(5 : ℚ) / 2⌋ = 2 by norm_num]
      rfl
    unfold fd_delta
    rw [h2, h3]
    norm_num
  exact ⟨⟨by norm_num, by norm_num, by norm_num, hdelta⟩,
    claim_C6_round_half_even 1 ((1 : ℚ) / 4) 1 2 (by norm_num) (by norm_num)
      (by norm_num) hdelta⟩

/-- `fmt_buffer_write` with enough remaining room and enough source bytes
appends exactly the first `len` bytes. -/
theorem fmt_buffer_write_room (b : FmtBuffer) (data : List Char) (len : Nat)
    (hlen : len ≤ b.size) (hdata : len ≤ data.length) :
    fmt_buffer_write b data len =
      (len, { out := b.out ++ data.take len, size := b.size - len,
              written := b.written + len }) := by
  obtain ⟨o, s, w⟩ := b
  simp only at hlen
  unfold fmt_buffer_write
  by_cases h0 : s = 0
  · have hl0 : len = 0 := by omega
    subst hl0
    simp [h0]
  · have hmin : min len s = len := by simp; omega
    have hpt : paddedTake data len = data.take len := by
      unfold paddedTake
      have : len - data.length = 0 := by omega
      simp [this]
    simp [h0, hmin, hpt]

/-- The padding loop with enough remaining room appends exactly `k` fill
bytes. -/
theorem writeRepeat_room : ∀ (k : Nat) (b : FmtBuffer) (c : Char), k ≤ b.size →
    writeRepeat b c k =
      (k, { out := b.out ++ List.replicate k c, size := b.size - k,
            written := b.written + k })
  | 0, b, c, _ => by simp [writeRepeat]
  | k + 1, b, c, h => by
    obtain ⟨o, s, w⟩ := b
    simp only at h
    have h0 : ¬(s = 0) := by omega
    simp only [writeRepeat, fmt_buffer_write_char, if_neg h0]
    rw [writeRepeat_room k ⟨o ++ [c], s - 1, w + 1⟩ c (by simp only; omega)]
    refine Prod.ext (by simp; omega) ?_
    simp only [FmtBuffer.mk.injEq]
    refine ⟨by simp [List.replicate_succ, List.append_assoc], by omega, by omega⟩

/-- `spec_aligned` for left alignment, as text plus right padding (the
padding degenerates to `[]` when the text already fills the width). -/
theorem spec_aligned_left (fill : Char) (width : Nat) (str : List Char) :
    spec_aligned FmtAlign.left fill width str =
      str ++ List.replicate (width - str.length) fill := by
  unfold spec_aligned
  by_cases h : width ≤ str.length
  · rw [if_pos h]
    have : width - str.length = 0 := by omega
    simp [this]
  · rw [if_neg h]

/-- `spec_aligned` for right alignment. -/
theorem spec_aligned_right (fill : Char) (width : Nat) (str : List Char) :
    spec_aligned FmtAlign.right fill width str =
      List.replicate (width - str.length) fill ++ str := by
  unfold spec_aligned
  by_cases h : width ≤ str.length
  · rw [if_pos h]
    have : width - str.length = 0 := by omega
    simp [this]
  · rw [if_neg h]

/-- `spec_aligned` for center alignment. -/
theorem spec_aligned_center (fill : Char) (width : Nat) (str : List Char) :
    spec_aligned FmtAlign.center fill width str =
      List.replicate ((width - str.length) / 2) fill ++ str
        ++ List.replicate ((width - str.length) - (width - str.length) / 2) fill := by
  unfold spec_aligned
  by_cases h : width ≤ str.length
  · rw [if_pos h]
    have : width - str.length = 0 := by omega
    simp [this]
  · rw [if_neg h]

/-- With enough remaining room, `apply_alignment` appends exactly the
§4.5 alignment of the text and returns its length. -/
theorem apply_alignment_room (b : FmtBuffer) (spec : FmtSpec) (str : List Char)
    (hroom : sizeT spec.width + str.length ≤ b.size) :
    apply_alignment b spec str str.length =
      ((spec_aligned spec.align spec.fill_char (sizeT spec.width) str).length,
       { out := b.out ++ spec_aligned spec.align spec.fill_char (sizeT spec.width) str,
         size := b.size -
           (spec_aligned spec.align spec.fill_char (sizeT spec.width) str).length,
         written := b.written +
           (spec_aligned spec.align spec.fill_char (sizeT spec.width) str).length }) := by
  by_cases hgt : str.length > sizeT spec.width
  · have hsa : spec_aligned spec.align spec.fill_char (sizeT spec.width) str = str := by
      unfold spec_aligned
      rw [if_pos (by omega)]
    rw [hsa]
    unfold apply_alignment
    rw [if_pos hgt, fmt_buffer_write_room b str str.length (by omega) le_rfl]
    simp
  · unfold apply_alignment
    rw [if_neg hgt]
    rcases hal : spec.align with _ | _ | _
    · rw [hal] at *
      rw [spec_aligned_left]
      simp only [wadd]
      rw [fmt_buffer_write_room b str str.length (by omega) le_rfl]
      rw [writeRepeat_room (sizeT spec.width - str.length)
        { out := b.out ++ str.take str.length, size := b.size - str.length,
          written := b.written + str.length } spec.fill_char (by simp only; omega)]
      refine Prod.ext (by simp; try omega) ?_
      simp only [FmtBuffer.mk.injEq]
      refine ⟨by simp [List.append_assoc], by simp; try omega, by simp; try omega⟩
    · rw [hal] at *
      rw [spec_aligned_center]
      simp only [wadd]
      rw [writeRepeat_room ((sizeT spec.width - str.length) / 2) b spec.fill_char (by omega)]
      rw [fmt_buffer_write_room
        { out := b.out ++ List.replicate ((sizeT spec.width - str.length) / 2) spec.fill_char,
          size := b.size - (sizeT spec.width - str.length) / 2,
          written := b.written + (sizeT spec.width - str.length) / 2 }
        str str.length (by simp only; omega) le_rfl]
      rw [writeRepeat_room ((sizeT spec.width - str.length)
            - (sizeT spec.width - str.length) / 2)
        { out := (b.out ++ List.replicate ((sizeT spec.width - str.length) / 2)
            spec.fill_char) ++ str.take str.length,
          size := b.size - (sizeT spec.width - str.length) / 2 - str.length,
          written := b.written + (sizeT spec.width - str.length) / 2 + str.length }
        spec.fill_char (by simp only; omega)]
      refine Prod.ext (by simp; try omega) ?_
      simp only [FmtBuffer.mk.injEq]
      refine ⟨by simp [List.append_assoc], by simp; try omega, by simp; try omega⟩
    · rw [hal] at *
      rw [spec_aligned_right]
      simp only [wadd]
      rw [writeRepeat_room (sizeT spec.width - str.length) b spec.fill_char (by omega)]
      rw [fmt_buffer_write_room
        { out := b.out ++ List.replicate (sizeT spec.width - str.length) spec.fill_char,
          size := b.size - (sizeT spec.width - str.length),
          written := b.written + (sizeT spec.width - str.length) }
        str str.length (by simp only; omega) le_rfl]
      refine Prod.ext (by simp; try omega) ?_
      simp only [FmtBuffer.mk.injEq]
      refine ⟨by simp [List.append_assoc], by simp; try omega, by simp; try omega⟩

/-- **C10.**  A string specifier whose argument value is the NULL pointer
emits the six bytes `(null)`, aligned to the width like any other string
(per §4.5), instead of dereferencing the pointer.  Stated for a buffer with
enough remaining room to hold the aligned text. -/
theorem claim_C10_null_string (spec : FmtSpec) (b : FmtBuffer)
    (hnull : spec.value = none)
    (hroom : sizeT spec.width + 6 ≤ b.size) :
    (fmtlib_format_string b spec).2.out =
      b.out ++ spec_aligned spec.align spec.fill_char (sizeT spec.width) nullChars
    ∧ (fmtlib_format_string b spec).1 =
      (spec_aligned spec.align spec.fill_char (sizeT spec.width) nullChars).length := by
  have h6 : nullChars.length = 6 := rfl
  unfold fmtlib_format_string
  rw [hnull]
  dsimp only [voidptr_value]
  by_cases hw : spec.width = 0
  · have hsz : sizeT spec.width = 0 := by rw [hw]; rfl
    rw [if_pos hw]
    have hsa : spec_aligned spec.align spec.fill_char (sizeT spec.width) nullChars
        = nullChars := by
      unfold spec_aligned
      rw [if_pos (by rw [hsz]; norm_num)]
    rw [hsa, show (6 : Nat) = nullChars.length from rfl,
      fmt_buffer_write_room b nullChars nullChars.length (by omega) le_rfl]
    simp
  · rw [if_neg hw]
    rw [show (6 : Nat) = nullChars.length from rfl,
      apply_alignment_room b spec nullChars (by omega)]
    exact ⟨rfl, rfl⟩

/-- Witness for C10: a right-aligned width-10 string specifier with a NULL
value in a fresh 32-byte buffer emits `....(null)`. -/
theorem claim_C10_witness :
    (fmtlib_format_string (fmt_buffer 32)
        { specZero with width := 10, align := .right, fill_char := '.' }).2.out =
      (fmt_buffer 32).out ++
        spec_aligned FmtAlign.right '.' (sizeT 10) nullChars
    ∧ (fmtlib_format_string (fmt_buffer 32)
        { specZero with width := 10, align := .right, fill_char := '.' }).1 =
      (spec_aligned FmtAlign.right '.' (sizeT 10) nullChars).length :=
  claim_C10_null_string
    { specZero with width := 10, align := .right, fill_char := '.' }
    (fmt_buffer 32) rfl (by decide)

/-- The clamped `memcpy` source has exactly the requested length. -/
theorem paddedTake_length (data : List Char) (n : Nat) :
    (paddedTake data n).length = n := by
  simp [paddedTake]
  omega

/-- `fmt_buffer_write_char` preserves the buffer invariant and returns the
number of bytes it appended. -/
theorem wop_write_char (cap : Nat) (c : Char) :
    WOp cap (fun b => fmt_buffer_write_char b c) := by
  intro b hb
  obtain ⟨h1, h2⟩ := hb
  simp only [fmt_buffer_write_char]
  by_cases h0 : b.size = 0
  · rw [if_pos h0]
    exact ⟨⟨h1, h2⟩, by simp⟩
  · rw [if_neg h0]
    exact ⟨⟨by simp [h1], by simp; omega⟩, by simp⟩

/-- `fmt_buffer_write` preserves the buffer invariant and returns the number
of bytes it appended. -/
theorem wop_write (cap : Nat) (data : List Char) (len : Nat) :
    WOp cap (fun b => fmt_buffer_write b data len) := by
  intro b hb
  obtain ⟨h1, h2⟩ := hb
  simp only [fmt_buffer_write]
  by_cases h0 : b.size = 0
  · rw [if_pos h0]
    exact ⟨⟨h1, h2⟩, by simp⟩
  · rw [if_neg h0]
    refine ⟨⟨by simp [h1, paddedTake_length], ?_⟩, by simp⟩
    simp [paddedTake_length]
    omega

theorem pacc_init (cap : Nat) (b : FmtBuffer) (n0 : Nat) (hb : InvB cap b) :
    PAcc cap b n0 (n0, b) := ⟨hb, rfl⟩

theorem pacc_wadd {cap : Nat} {b0 : FmtBuffer} {n0 : Nat} {r : Nat × FmtBuffer}
    {f : FmtBuffer → Nat × FmtBuffer} (hf : WOp cap f) (hr : PAcc cap b0 n0 r) :
    PAcc cap b0 n0 (wadd r f) := by
  obtain ⟨hi, he⟩ := hr
  obtain ⟨hi2, he2⟩ := hf r.2 hi
  exact ⟨hi2, by simp only [wadd]; omega⟩

theorem pacc_ite {cap : Nat} {b0 : FmtBuffer} {n0 : Nat} (c : Prop) [Decidable c]
    (r1 r2 : Nat × FmtBuffer) (h1 : PAcc cap b0 n0 r1) (h2 : PAcc cap b0 n0 r2) :
    PAcc cap b0 n0 (if c then r1 else r2) := by
  split
  · exact h1
  · exact h2

theorem wop_to_pacc {cap : Nat} {f : FmtBuffer → Nat × FmtBuffer}
    (h : ∀ b, InvB cap b → PAcc cap b 0 (f b)) : WOp cap f := by
  intro b hb
  obtain ⟨hi, he⟩ := h b hb
  exact ⟨hi, by omega⟩

theorem wop_apply {cap : Nat} {f : FmtBuffer → Nat × FmtBuffer} {b : FmtBuffer}
    (hf : WOp cap f) (hb : InvB cap b) : PAcc cap b 0 (f b) := by
  obtain ⟨hi, he⟩ := hf b hb
  exact ⟨hi, by omega⟩

theorem wop_writeRepeat (cap : Nat) (c : Char) : ∀ k, WOp cap (fun b => writeRepeat b c k)
  | 0 => by
    intro b hb
    exact ⟨hb, by simp [writeRepeat]⟩
  | k + 1 => by
    intro b hb
    obtain ⟨h1i, h1e⟩ := wop_write_char cap c b hb
    obtain ⟨h2i, h2e⟩ := wop_writeRepeat cap c k (fmt_buffer_write_char b c).2 h1i
    dsimp only at h1i h1e h2i h2e
    simp only [writeRepeat]
    exact ⟨h2i, by omega⟩

theorem wop_writeChars (cap : Nat) : ∀ l : List Char, WOp cap (fun b => writeChars b l)
  | [] => by
    intro b hb
    exact ⟨hb, by simp [writeChars]⟩
  | c :: cs => by
    intro b hb
    obtain ⟨h1i, h1e⟩ := wop_write_char cap c b hb
    obtain ⟨h2i, h2e⟩ := wop_writeChars cap cs (fmt_buffer_write_char b c).2 h1i
    dsimp only at h1i h1e h2i h2e
    simp only [writeChars]
    exact ⟨h2i, by omega⟩

/-- `format_integer` writes only through the clamped buffer operations. -/
theorem wop_format_integer (cap : Nat) (spec : FmtSpec) (is_signed : Bool)
    (fmt : NumFormat) : WOp cap (fun b => format_integer b spec is_signed fmt) := by
  apply wop_to_pacc
  intro b hb
  simp only [format_integer]
  apply pacc_wadd (wop_write _ _ _)
  repeat
    first
    | exact pacc_init cap b 0 hb
    | apply pacc_ite
    | apply pacc_wadd (wop_write_char _ _)
    | apply pacc_wadd (wop_writeRepeat _ _ _)
    | apply pacc_wadd (wop_writeChars _ _)
    | apply pacc_wadd (wop_write _ _ _)

/-- `format_double` writes only through the clamped buffer operations. -/
theorem wop_format_double (cap : Nat) (spec : FmtSpec) :
    WOp cap (fun b => format_double b spec) := by
  apply wop_to_pacc
  intro b hb
  simp only [format_double]
  repeat
    first
    | exact pacc_init cap b 0 hb
    | apply pacc_ite
    | apply pacc_wadd (wop_write_char _ _)
    | apply pacc_wadd (wop_writeRepeat _ _ _)
    | apply pacc_wadd (wop_writeChars _ _)
    | apply pacc_wadd (wop_write _ _ _)

theorem wop_apply_alignment (cap : Nat) (spec : FmtSpec) (str : List Char) (len : Nat) :
    WOp cap (fun b => apply_alignment b spec str len) := by
  apply wop_to_pacc
  intro b hb
  simp only [apply_alignment]
  rcases hal : spec.align with _ | _ | _ <;> simp only [hal] <;>
    repeat
      first
      | exact pacc_init cap b 0 hb
      | exact wop_apply (wop_write _ _ _) hb
      | apply pacc_ite
      | apply pacc_wadd (wop_write_char _ _)
      | apply pacc_wadd (wop_writeRepeat _ _ _)
      | apply pacc_wadd (wop_write _ _ _)

theorem wop_format_signed (cap : Nat) (spec : FmtSpec) :
    WOp cap (fun b => fmtlib_format_signed b spec) := by
  intro b hb
  simp only [fmtlib_format_signed]
  exact (wop_apply_alignment cap spec _ _) b hb

theorem wop_format_unsigned (cap : Nat) (spec : FmtSpec) :
    WOp cap (fun b => fmtlib_format_unsigned b spec) := by
  intro b hb
  simp only [fmtlib_format_unsigned]
  exact (wop_apply_alignment cap spec _ _) b hb

theorem wop_format_binary (cap : Nat) (spec : FmtSpec) :
    WOp cap (fun b => fmtlib_format_binary b spec) := by
  intro b hb
  simp only [fmtlib_format_binary]
  exact (wop_apply_alignment cap spec _ _) b hb

theorem wop_format_octal (cap : Nat) (spec : FmtSpec) :
    WOp cap (fun b => fmtlib_format_octal b spec) := by
  intro b hb
  simp only [fmtlib_format_octal]
  exact (wop_apply_alignment cap spec _ _) b hb

theorem wop_format_hex (cap : Nat) (spec : FmtSpec) :
    WOp cap (fun b => fmtlib_format_hex b spec) := by
  intro b hb
  simp only [fmtlib_format_hex]
  exact (wop_apply_alignment cap spec _ _) b hb

theorem wop_format_double_pub (cap : Nat) (spec : FmtSpec) :
    WOp cap (fun b => fmtlib_format_double b spec) := by
  intro b hb
  simp only [fmtlib_format_double]
  exact (wop_apply_alignment cap spec _ _) b hb

theorem wop_format_string (cap : Nat) (spec : FmtSpec) :
    WOp cap (fun b => fmtlib_format_string b spec) := by
  apply wop_to_pacc
  intro b hb
  simp only [fmtlib_format_string]
  repeat
    first
    | exact wop_apply (wop_write _ _ _) hb
    | exact wop_apply (wop_apply_alignment _ _ _ _) hb
    | apply pacc_ite

theorem wop_format_char (cap : Nat) (spec : FmtSpec) :
    WOp cap (fun b => fmtlib_format_char b spec) := by
  apply wop_to_pacc
  intro b hb
  simp only [fmtlib_format_char]
  repeat
    first
    | exact wop_apply (wop_write _ _ _) hb
    | exact wop_apply (wop_apply_alignment _ _ _ _) hb
    | apply pacc_ite

/-- Every dispatch target of `fmtlib_format` preserves the buffer
invariant and returns the number of bytes it appended. -/
theorem wop_fmtlib_format (cap : Nat) (spec : FmtSpec) :
    WOp cap (fun b => fmtlib_format b spec) := by
  intro b hb
  simp only [fmtlib_format]
  by_cases h0 : spec.type_len = 0
  · rw [if_pos h0]
    exact (wop_apply_alignment cap spec [] 0) b hb
  · rw [if_neg h0]
    rcases hf : spec.formatter with _ | f
    · exact ⟨hb, by simp⟩
    · cases f
      · exact (wop_format_signed cap spec) b hb
      · exact (wop_format_unsigned cap spec) b hb
      · exact (wop_format_binary cap spec) b hb
      · exact (wop_format_octal cap spec) b hb
      · exact (wop_format_hex cap spec) b hb
      · exact (wop_format_double_pub cap spec) b hb
      · exact (wop_format_string cap spec) b hb
      · exact (wop_format_char cap spec) b hb
      · exact ⟨hb, by simp⟩

theorem acct_ite {cap : Nat} (c : Prop) [Decidable c] (s1 s2 : DrvState)
    (h1 : Acct cap s1) (h2 : Acct cap s2) : Acct cap (if c then s1 else s2) := by
  split
  · exact h1
  · exact h2

theorem acct_emit {cap : Nat} {n0 : Nat} {b0 : FmtBuffer} {f : FmtBuffer → Nat × FmtBuffer}
    (hf : WOp cap f) (hn : n0 = b0.written) (hb : InvB cap b0) :
    n0 + (f b0).1 = (f b0).2.written ∧ InvB cap (f b0).2 := by
  obtain ⟨hi, he⟩ := hf b0 hb
  exact ⟨by omega, hi⟩

theorem acct_chain {cap : Nat} {n0 : Nat} {b0 : FmtBuffer} {r : Nat × FmtBuffer}
    (hr : PAcc cap b0 n0 r) (hn : n0 = b0.written) :
    r.1 = r.2.written ∧ InvB cap r.2 := ⟨by have := hr.2; omega, hr.1⟩

set_option maxHeartbeats 2000000 in
/-- One iteration of the scan loop keeps the running count equal to the
bytes written into a well-formed buffer: every write in the loop body goes
through the clamped buffer operations. -/
theorem step_acct {cap : Nat} (maxSpecs maxArgs : Nat) (reg : List RegEntry)
    (t : List Char) (args : List CArg) (st : DrvState) (h : Acct cap st) :
    Acct cap (step_fn maxSpecs maxArgs reg t args st) := by
  obtain ⟨hn, hb⟩ := h
  simp only [step_fn]
  repeat
    first
    | apply acct_ite
    | exact ⟨hn, hb⟩
    | exact acct_emit (wop_write_char _ _) hn hb
    | exact acct_emit (wop_fmtlib_format _ _) hn hb
    | exact acct_chain (pacc_wadd (wop_write_char _ _)
        (pacc_wadd (wop_write _ _ _)
          (pacc_wadd (wop_write _ _ _) (pacc_init _ _ _ hb)))) hn

theorem driver_loop_acct {cap : Nat} (maxSpecs maxArgs : Nat) (reg : List RegEntry)
    (t : List Char) (args : List CArg) :
    ∀ (fuel : Nat) (st st' : DrvState), Acct cap st →
      driver_loop maxSpecs maxArgs reg t args fuel st = some st' → Acct cap st'
  | 0, st, st', _, h => by simp [driver_loop] at h
  | fuel + 1, st, st', ha, h => by
    rw [driver_loop] at h
    by_cases he : exitCond t st = true
    · rw [if_pos he] at h
      injection h with h2
      subst h2
      exact ha
    · rw [if_neg he] at h
      exact driver_loop_acct maxSpecs maxArgs reg t args fuel _ st'
        (step_acct maxSpecs maxArgs reg t args st ha) h

theorem sacct_ite {cap : Nat} (c : Prop) [Decidable c] (r1 r2 : Nat × Nat × Nat × FmtBuffer)
    (h1 : SAcct cap r1) (h2 : SAcct cap r2) : SAcct cap (if c then r1 else r2) := by
  split
  · exact h1
  · exact h2

theorem second_step_acct {cap : Nat} (t : List Char) (specs : Nat → FmtSpec)
    (parsedSpecs : Nat → ParsedSpec) (values : Nat → Value)
    (pos idx n : Nat) (buf : FmtBuffer) (hn : n = buf.written) (hb : InvB cap buf) :
    SAcct cap (second_step t specs parsedSpecs values pos idx n buf) := by
  simp only [second_step]
  repeat
    first
    | apply sacct_ite
    | exact ⟨hn, hb⟩
    | exact acct_emit (wop_write_char _ _) hn hb
    | exact acct_emit (wop_fmtlib_format _ _) hn hb

theorem second_loop_acct {cap : Nat} (t : List Char) (specs : Nat → FmtSpec)
    (parsedSpecs : Nat → ParsedSpec) (values : Nat → Value) (specIndex : Nat) :
    ∀ (fuel : Nat) (pos idx n : Nat) (buf : FmtBuffer) (r : Nat × Nat × FmtBuffer),
      n = buf.written → InvB cap buf →
      second_loop t specs parsedSpecs values specIndex fuel pos idx n buf = some r →
      r.2.1 = r.2.2.written ∧ InvB cap r.2.2
  | 0, pos, idx, n, buf, r, _, _, h => by simp [second_loop] at h
  | fuel + 1, pos, idx, n, buf, r, hn, hb, h => by
    rw [second_loop] at h
    by_cases he : exitCond2 t specIndex pos idx buf = true
    · rw [if_pos he] at h
      injection h with h2
      subst h2
      exact ⟨hn, hb⟩
    · rw [if_neg he] at h
      obtain ⟨hs1, hs2⟩ := second_step_acct t specs parsedSpecs values pos idx n buf hn hb
      exact second_loop_acct t specs parsedSpecs values specIndex fuel _ _ _ _ r hs1 hs2 h

theorem write_rest_acct {cap : Nat} (t : List Char) :
    ∀ (fuel : Nat) (pos n : Nat) (buf : FmtBuffer) (r : Nat × FmtBuffer),
      n = buf.written → InvB cap buf →
      write_rest t fuel pos n buf = some r →
      r.1 = r.2.written ∧ InvB cap r.2
  | 0, pos, n, buf, r, _, _, h => by simp [write_rest] at h
  | fuel + 1, pos, n, buf, r, hn, hb, h => by
    rw [write_rest] at h
    by_cases he : chAt t pos = nulChar ∨ fmt_buffer_full buf = true
    · rw [if_pos he] at h
      injection h with h2
      subst h2
      exact ⟨hn, hb⟩
    · rw [if_neg he] at h
      obtain ⟨hs1, hs2⟩ := acct_emit (wop_write_char cap (chAt t pos)) hn hb
      exact write_rest_acct t fuel _ _ _ r hs1 hs2 h

/-- **C1.**  Buffer contract of a format call: whenever `fmt_format`
returns, the returned byte count is at most `capacity − 1`, the byte of
the output region at that position is the NUL terminator (stated with a
non-NUL default, so the position exists), and once a buffer is full every
further write returns 0 and leaves the buffer unchanged. -/
theorem claim_C1_output_bounds (maxSpecs maxArgs : Nat) (reg : List RegEntry)
    (fuel : Nat) (t : List Char) (args : List CArg) (cap : Nat) (n : Nat) (buf : FmtBuffer)
    (hcap : 1 ≤ cap)
    (hrun : fmt_format maxSpecs maxArgs reg fuel t args cap = some (n, buf)) :
    n ≤ cap - 1 ∧ (bufferBytes cap buf).getD n 'X' = nulChar
    ∧ ∀ (b : FmtBuffer) (data : List Char) (len : Nat) (c : Char),
        fmt_buffer_full b = true →
        fmt_buffer_write b data len = (0, b) ∧ fmt_buffer_write_char b c = (0, b) := by
  have hfinal : n = buf.written ∧ InvB cap buf := by
    unfold fmt_format at hrun
    cases hd : driver_loop maxSpecs maxArgs reg t args fuel (init_state cap) with
    | none => rw [hd] at hrun; simp at hrun
    | some st =>
      rw [hd] at hrun
      have hst : Acct cap st :=
        driver_loop_acct maxSpecs maxArgs reg t args fuel (init_state cap) st
          ⟨rfl, rfl, by simp [init_state, fmt_buffer]⟩ hd
      obtain ⟨hstn, hstb⟩ := hst
      dsimp only at hrun
      by_cases hsp : st.singlePass = true
      · rw [if_pos hsp] at hrun
        injection hrun with h2
        rw [Prod.ext_iff] at h2
        obtain ⟨h2a, h2b⟩ := h2
        dsimp only at h2a h2b
        subst h2a
        subst h2b
        exact ⟨hstn, hstb⟩
      · rw [if_neg hsp] at hrun
        cases hs2 : second_loop t st.specs st.parsedSpecs
            (load_args_aux args st.argSizes (st.argCount - st.loadedArgCount)
              st.values st.cursor st.loadedArgCount).1 st.specIndex fuel
            st.passTwoStart st.passTwoIndex st.n st.buf with
        | none => rw [hs2] at hrun; simp at hrun
        | some r =>
          rw [hs2] at hrun
          dsimp only at hrun
          obtain ⟨hr1, hr2⟩ := second_loop_acct t st.specs st.parsedSpecs
            (load_args_aux args st.argSizes (st.argCount - st.loadedArgCount)
              st.values st.cursor st.loadedArgCount).1 st.specIndex fuel
            st.passTwoStart st.passTwoIndex st.n st.buf r hstn hstb hs2
          obtain ⟨hw1, hw2⟩ := write_rest_acct t fuel r.1 r.2.1 r.2.2 (n, buf) hr1 hr2 hrun
          exact ⟨hw1, hw2⟩
  obtain ⟨hfn, hfi1, hfi2⟩ := hfinal
  refine ⟨by omega, ?_, ?_⟩
  · unfold bufferBytes
    have hlen : buf.out.length ≤ cap - 1 := by omega
    obtain ⟨m, hm⟩ : ∃ m, cap - buf.out.length = m + 1 :=
      ⟨cap - buf.out.length - 1, by omega⟩
    rw [hm, List.replicate_succ]
    have hn2 : n = buf.out.length := by omega
    rw [hn2]
    rw [List.getD_append_right _ _ _ _ le_rfl]
    simp
  · intro b data len c hfull
    have hb0 : b.size = 0 := by
      simpa [fmt_buffer_full] using hfull
    constructor
    · simp [fmt_buffer_write, hb0]
    · simp [fmt_buffer_write_char, hb0]

/-- Witness for C1: formatting the plain template `hi` into a 4-byte buffer
returns 2 ≤ 3 with the NUL terminator at position 2. -/
theorem claim_C1_witness :
    2 ≤ 4 - 1 ∧ (bufferBytes 4 ⟨['h', 'i'], 1, 2⟩).getD 2 'X' = nulChar
    ∧ ∀ (b : FmtBuffer) (data : List Char) (len : Nat) (c : Char),
        fmt_buffer_full b = true →
        fmt_buffer_write b data len = (0, b) ∧ fmt_buffer_write_char b c = (0, b) :=
  claim_C1_output_bounds 16 16 [] 16 ['h', 'i'] [] 4 2 ⟨['h', 'i'], 1, 2⟩
    (by decide) (by rfl)
